import Mathlib

/-!
# PensionCalculator: interest schedules

A shallow embedding of `src/PensionCalculator.js`.

A JavaScript Number is an IEEE 754 binary64 value.  It is modelled as `JSNumber`:
a finite value carried as an exact rational, `+Infinity`, `-Infinity` or `NaN`.
Every arithmetic operation computes the exact result and rounds it to the nearest
binary64 value, ties to the even significand, overflowing to an infinity
(`roundToDouble`).  The sign of a zero is not represented: `-0` and `0` are the one
value `finite 0`, which they also are for `===`, `<=` and `+` in the program.
-/

namespace PensionCalculator

/-! ## Numbers -/

/-- A JavaScript Number. -/
inductive JSNumber where
  | finite (q : ℚ)
  | posInf
  | negInf
  | nan
  deriving DecidableEq

/-- Nearest integer, a tie going to the even neighbour. -/
def roundHalfEven (x : ℚ) : ℤ :=
  if x - (⌊x⌋ : ℚ) < 1 / 2 then ⌊x⌋
  else if 1 / 2 < x - (⌊x⌋ : ℚ) then ⌊x⌋ + 1
  else if ⌊x⌋ % 2 = 0 then ⌊x⌋ else ⌊x⌋ + 1

/-- The binary64 exponent of `q`: the `e` with `2 ^ e ≤ |q| < 2 ^ (e + 1)`, and
`-1022` throughout the subnormal range. -/
def binadeExponent (q : ℚ) : ℤ := max (Int.log 2 |q|) (-1022)

/-- The spacing of binary64 values around `q`: 52 fraction bits below the
exponent, so `2 ^ (-1074)` throughout the subnormal range. -/
def quantum (q : ℚ) : ℚ := (2 : ℚ) ^ (binadeExponent q - 52)

/-- The multiple of the spacing nearest to `q`, a tie going to the even multiple:
the binary64 rounding of `q` before the exponent range is cut off at the top. -/
def roundedValue (q : ℚ) : ℚ := (roundHalfEven (q / quantum q) : ℚ) * quantum q

/-- Rounding of an exact value to binary64, round-to-nearest, ties-to-even: the
nearest multiple of the spacing, and an infinity once that reaches `2 ^ 1024`. -/
def roundToDouble (q : ℚ) : JSNumber :=
  if (2 : ℚ) ^ 1024 ≤ roundedValue q then JSNumber.posInf
  else if roundedValue q ≤ -(2 : ℚ) ^ 1024 then JSNumber.negInf
  else JSNumber.finite (roundedValue q)

namespace JSNumber

/-- The Number `*`. -/
def mul : JSNumber → JSNumber → JSNumber
  | finite a, finite b => roundToDouble (a * b)
  | nan, _ => nan
  | _, nan => nan
  | finite a, posInf => if a = 0 then nan else if 0 < a then posInf else negInf
  | finite a, negInf => if a = 0 then nan else if 0 < a then negInf else posInf
  | posInf, finite b => if b = 0 then nan else if 0 < b then posInf else negInf
  | negInf, finite b => if b = 0 then nan else if 0 < b then negInf else posInf
  | posInf, posInf => posInf
  | posInf, negInf => negInf
  | negInf, posInf => negInf
  | negInf, negInf => posInf

/-- The Number `/`. A zero divisor is taken as `+0`. -/
def div : JSNumber → JSNumber → JSNumber
  | nan, _ => nan
  | _, nan => nan
  | finite a, finite b =>
    if b = 0 then (if a = 0 then nan else if 0 < a then posInf else negInf)
    else roundToDouble (a / b)
  | finite _, posInf => finite 0
  | finite _, negInf => finite 0
  | posInf, finite b => if 0 ≤ b then posInf else negInf
  | negInf, finite b => if 0 ≤ b then negInf else posInf
  | posInf, posInf => nan
  | posInf, negInf => nan
  | negInf, posInf => nan
  | negInf, negInf => nan

/-- The Number `+`. -/
def add : JSNumber → JSNumber → JSNumber
  | nan, _ => nan
  | _, nan => nan
  | finite a, finite b => roundToDouble (a + b)
  | finite _, posInf => posInf
  | finite _, negInf => negInf
  | posInf, finite _ => posInf
  | negInf, finite _ => negInf
  | posInf, posInf => posInf
  | negInf, negInf => negInf
  | posInf, negInf => nan
  | negInf, posInf => nan

/-- The comparison `<=`: false as soon as an operand is `NaN`. -/
def le : JSNumber → JSNumber → Prop
  | finite a, finite b => a ≤ b
  | finite _, posInf => True
  | negInf, finite _ => True
  | negInf, negInf => True
  | negInf, posInf => True
  | posInf, posInf => True
  | _, _ => False

/-- The values a Number can hold: the infinities, `NaN`, and the finite values that
binary64 rounding leaves as they are. -/
def IsDouble : JSNumber → Prop
  | finite q => roundToDouble q = finite q
  | _ => True

end JSNumber

/-- The host `Math.round`: the nearest integer, a tie going to the neighbour in the
direction of `+∞`; `NaN` and the infinities are returned as they are. -/
def mathRound : JSNumber → JSNumber
  | JSNumber.finite q => JSNumber.finite (⌊q + 1 / 2⌋ : ℤ)
  | x => x

/-- Source lines 72-79:
`Math.round((openingBalance * annualRate * monthNumber) / 1200)`. -/
def calculateMonthlyInterest (openingBalance monthNumber annualRate : JSNumber) : JSNumber :=
  mathRound (((openingBalance.mul annualRate).mul monthNumber).div (JSNumber.finite 1200))

/-- The spreadsheet `ROUND(x, 0)` named in the comment above the formula (source
line 77): nearest integer, a tie going to the neighbour farther from zero. -/
def spreadsheetRound (x : ℚ) : ℤ :=
  if 0 ≤ x then ⌊x + 1 / 2⌋ else -⌊-x + 1 / 2⌋

/-! ## Data model -/

/-- An entry of `year2024Months` / `year2025Months`: `{ date, monthNumber }`. -/
structure PeriodDefinition where
  date : String
  monthNumber : JSNumber
  deriving DecidableEq

/-- The object literal returned by the callback of `calculateYearTable`. -/
structure ScheduleRow where
  paymentDate : String
  openingBalance : JSNumber
  interest : JSNumber
  totalPayable : JSNumber
  deriving DecidableEq

/-- The `config` object destructured by `calculatePensionTables`. -/
structure Config where
  openingBalance833 : JSNumber
  openingBalance116 : JSNumber
  annualRate : JSNumber
  deriving DecidableEq

/-- The object `{ table833, table116 }` returned by `calculatePensionTables`. -/
structure PensionTables where
  table833 : List ScheduleRow
  table116 : List ScheduleRow
  deriving DecidableEq

/-! ## Year tables -/

/-- Source lines 106-122: `calculateYearTable`, a closure over `annualRate`. The
closed-over rate is the first argument here. -/
def calculateYearTable (annualRate : JSNumber) (openingBalance : JSNumber)
    (monthsInYear : List PeriodDefinition) : List ScheduleRow :=
  monthsInYear.map fun month =>
    let monthNumber := month.monthNumber
    let interest := calculateMonthlyInterest openingBalance monthNumber annualRate
    let total := openingBalance.add interest
    { paymentDate := month.date
      openingBalance := openingBalance
      interest := interest
      totalPayable := total }

/-- Source lines 125-139. -/
def year2024Months : List PeriodDefinition :=
  [ ⟨"31-03-2024", JSNumber.finite 0⟩, ⟨"30-04-2024", JSNumber.finite 1⟩,
    ⟨"31-05-2024", JSNumber.finite 2⟩, ⟨"30-06-2024", JSNumber.finite 3⟩,
    ⟨"31-07-2024", JSNumber.finite 4⟩, ⟨"31-08-2024", JSNumber.finite 5⟩,
    ⟨"30-09-2024", JSNumber.finite 6⟩, ⟨"31-10-2024", JSNumber.finite 7⟩,
    ⟨"30-11-2024", JSNumber.finite 8⟩, ⟨"31-12-2024", JSNumber.finite 9⟩,
    ⟨"31-01-2025", JSNumber.finite 10⟩, ⟨"28-02-2025", JSNumber.finite 11⟩,
    ⟨"31-03-2025", JSNumber.finite 12⟩ ]

/-- Source lines 141-146. -/
def year2025Months : List PeriodDefinition :=
  [ ⟨"30-04-2025", JSNumber.finite 1⟩, ⟨"31-05-2025", JSNumber.finite 2⟩,
    ⟨"30-06-2025", JSNumber.finite 3⟩, ⟨"31-07-2025", JSNumber.finite 4⟩ ]

/-- The lookup `table[table.length - 1].totalPayable` of source lines 151-152 and
158-159; on an empty table the property access on `undefined` throws, which is
`none` here. -/
def closingBalance (table : List ScheduleRow) : Option JSNumber :=
  (table[table.length - 1]?).map fun row => row.totalPayable

/-- Source lines 81-167: `calculatePensionTables`. `none` stands for a thrown
exception. -/
def calculatePensionTables (config : Config) : Option PensionTables :=
  let openingBalance833 := config.openingBalance833
  let openingBalance116 := config.openingBalance116
  let annualRate := config.annualRate
  let table833_2024 := calculateYearTable annualRate openingBalance833 year2024Months
  (closingBalance table833_2024).bind fun closingBalance833 =>
  let table833_2025 := calculateYearTable annualRate closingBalance833 year2025Months
  let table116_2024 := calculateYearTable annualRate openingBalance116 year2024Months
  (closingBalance table116_2024).bind fun closingBalance116 =>
  let table116_2025 := calculateYearTable annualRate closingBalance116 year2025Months
  let table833 := table833_2024 ++ table833_2025
  let table116 := table116_2024 ++ table116_2025
  some { table833 := table833, table116 := table116 }

/-! ## Arguments handed to the interest formula -/

/-- The argument triple of one call `calculateMonthlyInterest(openingBalance,
monthNumber, annualRate)` (source lines 109-113). -/
structure InterestCall where
  openingBalance : JSNumber
  monthNumber : JSNumber
  annualRate : JSNumber
  deriving DecidableEq

/-- The calls of `calculateMonthlyInterest` made by one run of
`calculateYearTable`, in order: one per element of `monthsInYear`, with the
arguments written at source lines 110-112. -/
def yearTableCalls (annualRate : JSNumber) (openingBalance : JSNumber)
    (monthsInYear : List PeriodDefinition) : List InterestCall :=
  monthsInYear.map fun month =>
    { openingBalance := openingBalance
      monthNumber := month.monthNumber
      annualRate := annualRate }

/-- The calls of `calculateMonthlyInterest` made while `calculatePensionTables`
builds `table833` (first component) and `table116` (second component), following
source lines 149-160. -/
def pensionTablesCalls (config : Config) : Option (List InterestCall × List InterestCall) :=
  let openingBalance833 := config.openingBalance833
  let openingBalance116 := config.openingBalance116
  let annualRate := config.annualRate
  let table833_2024 := calculateYearTable annualRate openingBalance833 year2024Months
  (closingBalance table833_2024).bind fun closingBalance833 =>
  let table116_2024 := calculateYearTable annualRate openingBalance116 year2024Months
  (closingBalance table116_2024).bind fun closingBalance116 =>
  some
    ( yearTableCalls annualRate openingBalance833 year2024Months ++
        yearTableCalls annualRate closingBalance833 year2025Months,
      yearTableCalls annualRate openingBalance116 year2024Months ++
        yearTableCalls annualRate closingBalance116 year2025Months )

/-! ## Component state and `calculatePension` -/

/-- A cell of a parsed CSV row (`dynamicTyping: true`). -/
inductive CsvValue where
  | text (s : String)
  | number (x : JSNumber)
  | bool (b : Bool)
  | null
  deriving DecidableEq

/-- A row of `results.data` (`header: true`): an object keyed by column name. -/
abbrev CsvRow := List (String × CsvValue)

/-- The state `summaryTables`: `{ table833, table116 }`, each `null` or a table. -/
structure SummaryTables where
  table833 : Option (List ScheduleRow)
  table116 : Option (List ScheduleRow)
  deriving DecidableEq

/-- The five `useState` cells of the component (source lines 8-15). `W` is the
type of the workbook object returned by `XLSX.read`. -/
structure State (W : Type) where
  csvData : Option (List CsvRow)
  calculatorSheet : Option W
  summaryTables : SummaryTables
  loading : Bool
  error : Option String

/-- Source lines 10-15: the initial state. -/
def State.initial (W : Type) : State W :=
  { csvData := none
    calculatorSheet := none
    summaryTables := { table833 := none, table116 := none }
    loading := false
    error := none }

/-- Source line 171. -/
def missingInputMessage : String := "Please upload both CSV and Excel files first"

/-- Source lines 178-181: the wage records read off the CSV rows. -/
def wageData (csvData : List CsvRow) : List (Option CsvValue × Option CsvValue) :=
  csvData.map fun row =>
    (row.lookup "Wage Month", row.lookup "Wages on which PF contribution was paid")

/-- Source lines 184-188: the configuration literal. `8.25` is the binary64 value
`33 / 4`. -/
def pensionConfig : Config :=
  { openingBalance833 := JSNumber.finite 346110
    openingBalance116 := JSNumber.finite 12527
    annualRate := JSNumber.finite (33 / 4) }

/-- The text of `error.message` for the `TypeError` of reading `totalPayable` off
`undefined`; its wording belongs to the engine. -/
def typeErrorMessage : String :=
  "Cannot read properties of undefined"

/-- Source lines 169-203: `calculatePension`, as the state reached once the
handler has run: the setter calls applied in order to the state it started in. -/
def calculatePension {W : Type} (s : State W) : State W :=
  match s.csvData, s.calculatorSheet with
  | some csvData, some _ =>
    let s1 := { s with loading := true }
    let _wageData := wageData csvData
    let config := pensionConfig
    let s2 :=
      match calculatePensionTables config with
      | some tables =>
        { s1 with summaryTables :=
            { table833 := some tables.table833, table116 := some tables.table116 } }
      | none => { s1 with error := some ("Error in calculation: " ++ typeErrorMessage) }
    { s2 with loading := false }
  | _, _ => { s with error := some missingInputMessage }

/-! ## Rounding to the nearest integer -/

theorem roundHalfEven_cases (x : ℚ) :
    (roundHalfEven x = ⌊x⌋ ∧ x - (⌊x⌋ : ℚ) ≤ 1 / 2) ∨
    (roundHalfEven x = ⌊x⌋ + 1 ∧ 1 / 2 ≤ x - (⌊x⌋ : ℚ)) := by
  unfold roundHalfEven
  split_ifs with h1 h2 h3
  · exact Or.inl ⟨rfl, le_of_lt h1⟩
  · exact Or.inr ⟨rfl, le_of_lt h2⟩
  · exact Or.inl ⟨rfl, not_lt.mp h2⟩
  · exact Or.inr ⟨rfl, not_lt.mp h1⟩

theorem abs_roundHalfEven_sub_le (x : ℚ) : |((roundHalfEven x : ℤ) : ℚ) - x| ≤ 1 / 2 := by
  have h1 := Int.floor_le x
  have h2 := Int.lt_floor_add_one x
  rw [abs_le]
  rcases roundHalfEven_cases x with ⟨h, hf⟩ | ⟨h, hf⟩ <;> rw [h] <;> push_cast <;>
    constructor <;> linarith

theorem roundHalfEven_eq_of_abs_lt (x : ℚ) (n : ℤ) (h : |x - (n : ℚ)| < 1 / 2) :
    roundHalfEven x = n := by
  have hx := abs_roundHalfEven_sub_le x
  rw [abs_lt] at h
  rw [abs_le] at hx
  have h1 : ((roundHalfEven x - n : ℤ) : ℚ) < 1 := by push_cast; linarith
  have h2 : (-1 : ℚ) < ((roundHalfEven x - n : ℤ) : ℚ) := by push_cast; linarith
  have h3 : roundHalfEven x - n < 1 := by exact_mod_cast h1
  have h4 : -1 < roundHalfEven x - n := by exact_mod_cast h2
  omega

theorem roundHalfEven_intCast (n : ℤ) : roundHalfEven (n : ℚ) = n :=
  roundHalfEven_eq_of_abs_lt _ n (by simp)

theorem roundHalfEven_mono {x y : ℚ} (h : x ≤ y) : roundHalfEven x ≤ roundHalfEven y := by
  have hfl : ⌊x⌋ ≤ ⌊y⌋ := Int.floor_mono h
  rcases lt_or_eq_of_le hfl with hlt | heq
  · have hx : roundHalfEven x ≤ ⌊x⌋ + 1 := by
      rcases roundHalfEven_cases x with ⟨h1, _⟩ | ⟨h1, _⟩ <;> omega
    have hy : ⌊y⌋ ≤ roundHalfEven y := by
      rcases roundHalfEven_cases y with ⟨h1, _⟩ | ⟨h1, _⟩ <;> omega
    omega
  · unfold roundHalfEven
    rw [← heq]
    split_ifs <;> first | omega | (exfalso; linarith)

theorem roundHalfEven_neg (x : ℚ) : roundHalfEven (-x) = -roundHalfEven x := by
  by_cases hx : (⌊x⌋ : ℚ) = x
  · rw [← hx, ← Int.cast_neg, roundHalfEven_intCast, roundHalfEven_intCast]
  · have h1 := Int.floor_le x
    have h2 := Int.lt_floor_add_one x
    have h3 : (⌊x⌋ : ℚ) < x := lt_of_le_of_ne h1 hx
    have hfl : ⌊-x⌋ = -⌊x⌋ - 1 := by
      rw [Int.floor_eq_iff]
      push_cast
      constructor <;> linarith
    unfold roundHalfEven
    rw [hfl]
    push_cast
    split_ifs <;> first | omega | (exfalso; linarith)

/-! ## The binary64 grid -/

theorem binadeExponent_ge (q : ℚ) : -1022 ≤ binadeExponent q := le_max_right _ _

theorem binadeExponent_neg (q : ℚ) : binadeExponent (-q) = binadeExponent q := by
  simp [binadeExponent]

theorem abs_lt_zpow_binadeExponent (q : ℚ) : |q| < (2 : ℚ) ^ (binadeExponent q + 1) := by
  have h := Int.lt_zpow_succ_log_self (b := 2) (by norm_num) |q|
  have h2 : ((2 : ℕ) : ℚ) ^ (Int.log 2 |q| + 1) ≤ (2 : ℚ) ^ (binadeExponent q + 1) := by
    push_cast
    apply zpow_le_zpow_right₀ (by norm_num)
    have := le_max_left (Int.log 2 |q|) (-1022)
    unfold binadeExponent
    omega
  exact lt_of_lt_of_le h h2

theorem zpow_binadeExponent_le {q : ℚ} (hq : q ≠ 0) (h : -1022 < binadeExponent q) :
    (2 : ℚ) ^ binadeExponent q ≤ |q| := by
  have hlog : binadeExponent q = Int.log 2 |q| := by
    unfold binadeExponent at h ⊢
    rcases max_cases (Int.log 2 |q|) (-1022) with ⟨h1, _⟩ | ⟨h1, _⟩
    · exact h1
    · rw [h1] at h; omega
  rw [hlog]
  have := Int.zpow_log_le_self (b := 2) (r := |q|) (by norm_num) (abs_pos.mpr hq)
  exact_mod_cast this

theorem binadeExponent_eq {x : ℚ} {e : ℤ} (hx : x ≠ 0) (he : -1022 ≤ e)
    (hL : (2 : ℚ) ^ e ≤ |x| ∨ e = -1022) (hU : |x| < (2 : ℚ) ^ (e + 1)) :
    binadeExponent x = e := by
  have hpos : 0 < |x| := abs_pos.mpr hx
  have h1 : Int.log 2 |x| < e + 1 := by
    rw [← Int.lt_zpow_iff_log_lt (by norm_num) hpos]
    exact_mod_cast hU
  unfold binadeExponent
  rcases hL with hL | hL
  · have h2 : e ≤ Int.log 2 |x| := by
      rw [← Int.zpow_le_iff_le_log (by norm_num) hpos]
      exact_mod_cast hL
    rw [max_eq_left (by omega)]
    omega
  · rw [max_eq_right (by omega)]
    omega

theorem binadeExponent_mono {x y : ℚ} (hx : x ≠ 0) (h : |x| ≤ |y|) :
    binadeExponent x ≤ binadeExponent y := by
  unfold binadeExponent
  exact max_le_max (Int.log_mono_right (abs_pos.mpr hx) h) le_rfl

theorem quantum_pos (q : ℚ) : 0 < quantum q := zpow_pos (by norm_num) _

theorem quantum_neg (q : ℚ) : quantum (-q) = quantum q := by
  simp [quantum, binadeExponent_neg]

theorem zpow_eq_mul_quantum (q : ℚ) (k : ℤ) :
    (2 : ℚ) ^ (binadeExponent q + k) = (2 : ℚ) ^ (k + 52) * quantum q := by
  unfold quantum
  rw [← zpow_add₀ (by norm_num)]
  congr 1
  ring

/-- Below the top of its binade a value is less than `2 ^ 53` spacings. -/
theorem abs_div_quantum_lt (q : ℚ) : |q| / quantum q < (2 : ℚ) ^ (53 : ℤ) := by
  have h := abs_lt_zpow_binadeExponent q
  rw [zpow_eq_mul_quantum] at h
  rw [div_lt_iff₀ (quantum_pos q)]
  exact h

/-- A normal value is at least `2 ^ 52` spacings. -/
theorem le_abs_div_quantum {q : ℚ} (hq : q ≠ 0) (h : -1022 < binadeExponent q) :
    (2 : ℚ) ^ (52 : ℤ) ≤ |q| / quantum q := by
  have h1 := zpow_binadeExponent_le hq h
  have h2 := zpow_eq_mul_quantum q 0
  rw [add_zero, zero_add] at h2
  rw [h2] at h1
  rw [le_div_iff₀ (quantum_pos q)]
  exact h1

/-! ## Rounding to the grid -/

theorem roundedValue_zero : roundedValue 0 = 0 := by
  unfold roundedValue
  rw [zero_div]
  have : roundHalfEven (0 : ℚ) = 0 := by exact_mod_cast roundHalfEven_intCast 0
  rw [this]
  simp

theorem roundedValue_neg (q : ℚ) : roundedValue (-q) = -roundedValue q := by
  unfold roundedValue
  rw [quantum_neg, neg_div, roundHalfEven_neg]
  push_cast
  ring

theorem roundedValue_nonneg {q : ℚ} (h : 0 ≤ q) : 0 ≤ roundedValue q := by
  unfold roundedValue
  have h1 : roundHalfEven ((0 : ℤ) : ℚ) ≤ roundHalfEven (q / quantum q) :=
    roundHalfEven_mono (by push_cast; exact div_nonneg h (le_of_lt (quantum_pos q)))
  rw [roundHalfEven_intCast] at h1
  have h2 : (0 : ℚ) ≤ (roundHalfEven (q / quantum q) : ℚ) := by exact_mod_cast h1
  exact mul_nonneg h2 (le_of_lt (quantum_pos q))

theorem two_zpow_intCast (k : ℕ) : (2 : ℚ) ^ (k : ℤ) = (((2 : ℤ) ^ k : ℤ) : ℚ) := by
  rw [zpow_natCast]
  push_cast
  rfl

/-- The rounded value is at most `2 ^ 53` spacings: the top of the binade. -/
theorem roundedValue_le_top {q : ℚ} (hq : 0 ≤ q) :
    roundedValue q ≤ (2 : ℚ) ^ (53 : ℤ) * quantum q := by
  have h := abs_div_quantum_lt q
  rw [abs_of_nonneg hq] at h
  have h1 : roundHalfEven (q / quantum q) ≤ roundHalfEven ((((2 : ℤ) ^ 53 : ℤ)) : ℚ) :=
    roundHalfEven_mono (by
      have : (2 : ℚ) ^ (53 : ℤ) = (((2 : ℤ) ^ 53 : ℤ) : ℚ) := two_zpow_intCast 53
      rw [← this]
      exact le_of_lt h)
  rw [roundHalfEven_intCast] at h1
  have h2 : (roundHalfEven (q / quantum q) : ℚ) ≤ (2 : ℚ) ^ (53 : ℤ) := by
    have : (2 : ℚ) ^ (53 : ℤ) = (((2 : ℤ) ^ 53 : ℤ) : ℚ) := two_zpow_intCast 53
    rw [this]
    exact_mod_cast h1
  unfold roundedValue
  exact mul_le_mul_of_nonneg_right h2 (le_of_lt (quantum_pos q))

/-- The rounded value of a normal value is at least `2 ^ 52` spacings: the bottom
of the binade. -/
theorem bottom_le_roundedValue {q : ℚ} (hq : 0 < q) (h : -1022 < binadeExponent q) :
    (2 : ℚ) ^ (52 : ℤ) * quantum q ≤ roundedValue q := by
  have h0 := le_abs_div_quantum (ne_of_gt hq) h
  rw [abs_of_pos hq] at h0
  have h1 : roundHalfEven ((((2 : ℤ) ^ 52 : ℤ)) : ℚ) ≤ roundHalfEven (q / quantum q) :=
    roundHalfEven_mono (by
      have : (2 : ℚ) ^ (52 : ℤ) = (((2 : ℤ) ^ 52 : ℤ) : ℚ) := two_zpow_intCast 52
      rw [← this]
      exact h0)
  rw [roundHalfEven_intCast] at h1
  have h2 : (2 : ℚ) ^ (52 : ℤ) ≤ (roundHalfEven (q / quantum q) : ℚ) := by
    have : (2 : ℚ) ^ (52 : ℤ) = (((2 : ℤ) ^ 52 : ℤ) : ℚ) := two_zpow_intCast 52
    rw [this]
    exact_mod_cast h1
  unfold roundedValue
  exact mul_le_mul_of_nonneg_right h2 (le_of_lt (quantum_pos q))

theorem roundedValue_mono_nonneg {x y : ℚ} (hx : 0 ≤ x) (hxy : x ≤ y) :
    roundedValue x ≤ roundedValue y := by
  rcases eq_or_lt_of_le hx with h0 | hpos
  · rw [← h0, roundedValue_zero]
    exact roundedValue_nonneg (le_trans hx hxy)
  · have hy : 0 < y := lt_of_lt_of_le hpos hxy
    have hexp : binadeExponent x ≤ binadeExponent y :=
      binadeExponent_mono (ne_of_gt hpos) (by rwa [abs_of_pos hpos, abs_of_pos hy])
    rcases eq_or_lt_of_le hexp with heq | hlt
    · have hq : quantum x = quantum y := by unfold quantum; rw [heq]
      unfold roundedValue
      rw [hq]
      have h1 : roundHalfEven (x / quantum y) ≤ roundHalfEven (y / quantum y) :=
        roundHalfEven_mono (div_le_div_of_nonneg_right hxy (le_of_lt (quantum_pos y)))
      have h2 : (roundHalfEven (x / quantum y) : ℚ) ≤ (roundHalfEven (y / quantum y) : ℚ) := by
        exact_mod_cast h1
      exact mul_le_mul_of_nonneg_right h2 (le_of_lt (quantum_pos y))
    · have hnormal : -1022 < binadeExponent y := lt_of_le_of_lt (binadeExponent_ge x) hlt
      have h1 := roundedValue_le_top hx
      have h2 := bottom_le_roundedValue hy hnormal
      have h3 : (2 : ℚ) ^ (53 : ℤ) * quantum x ≤ (2 : ℚ) ^ (52 : ℤ) * quantum y := by
        unfold quantum
        rw [← zpow_add₀ (by norm_num), ← zpow_add₀ (by norm_num)]
        apply zpow_le_zpow_right₀ (by norm_num)
        omega
      linarith

theorem roundedValue_mono {x y : ℚ} (hxy : x ≤ y) : roundedValue x ≤ roundedValue y := by
  rcases le_total 0 x with hx | hx
  · exact roundedValue_mono_nonneg hx hxy
  · rcases le_total 0 y with hy | hy
    · have h1 : roundedValue x ≤ 0 := by
        have := roundedValue_nonneg (q := -x) (by linarith)
        rw [roundedValue_neg] at this
        linarith
      exact le_trans h1 (roundedValue_nonneg hy)
    · have := roundedValue_mono_nonneg (x := -y) (y := -x) (by linarith) (by linarith)
      rw [roundedValue_neg, roundedValue_neg] at this
      linarith

/-- A multiple `n * 2 ^ k` of a grid spacing with `|n| < 2 ^ 53` and `k ≥ -1074` is
on the grid: rounding leaves it as it is. -/
theorem roundedValue_mul_zpow (n k : ℤ) (hn : |n| < 2 ^ 53) (hk : -1074 ≤ k) :
    roundedValue ((n : ℚ) * (2 : ℚ) ^ k) = (n : ℚ) * (2 : ℚ) ^ k := by
  rcases eq_or_ne n 0 with h0 | h0
  · subst h0
    simp [roundedValue_zero]
  · obtain ⟨x, hxdef⟩ : ∃ x : ℚ, x = (n : ℚ) * (2 : ℚ) ^ k := ⟨_, rfl⟩
    rw [← hxdef]
    have hkpos : (0 : ℚ) < (2 : ℚ) ^ k := zpow_pos (by norm_num) _
    have hx : x ≠ 0 := by
      rw [hxdef]
      exact mul_ne_zero (by exact_mod_cast h0) (ne_of_gt hkpos)
    have habs : |x| = (|n| : ℚ) * (2 : ℚ) ^ k := by
      rw [hxdef, abs_mul, abs_of_pos hkpos]
    have hn53 : |(n : ℚ)| < (2 : ℚ) ^ (53 : ℤ) := by
      calc |(n : ℚ)| = ((|n| : ℤ) : ℚ) := by push_cast; rfl
        _ < (((2 : ℤ) ^ 53 : ℤ) : ℚ) := by exact_mod_cast hn
        _ = (2 : ℚ) ^ (53 : ℤ) := by norm_num
    have hlt : |x| < (2 : ℚ) ^ (k + 53) := by
      rw [habs, add_comm, zpow_add₀ (by norm_num)]
      exact mul_lt_mul_of_pos_right hn53 hkpos
    have hexp : binadeExponent x - 52 ≤ k := by
      by_contra hcon
      push_neg at hcon
      have hn1 : -1022 < binadeExponent x := by omega
      have h1 := zpow_binadeExponent_le hx hn1
      have h2 : (2 : ℚ) ^ (k + 53) ≤ (2 : ℚ) ^ binadeExponent x :=
        zpow_le_zpow_right₀ (by norm_num) (by omega)
      linarith
    obtain ⟨d, hd⟩ : ∃ d : ℕ, k = binadeExponent x - 52 + d :=
      ⟨(k - (binadeExponent x - 52)).toNat, by omega⟩
    have h2k : (2 : ℚ) ^ k = quantum x * (2 : ℚ) ^ d := by
      unfold quantum
      rw [← zpow_natCast, ← zpow_add₀ (by norm_num), ← hd]
    have hxq : x = (((n * 2 ^ d : ℤ)) : ℚ) * quantum x := by
      conv_lhs => rw [hxdef, h2k]
      push_cast
      ring
    have hdiv : x / quantum x = (((n * 2 ^ d : ℤ)) : ℚ) := by
      rw [div_eq_iff (ne_of_gt (quantum_pos x))]
      exact hxq
    unfold roundedValue
    rw [hdiv, roundHalfEven_intCast, ← hdiv, div_mul_cancel₀ _ (ne_of_gt (quantum_pos x))]

theorem abs_roundHalfEven_div_quantum_le (q : ℚ) :
    |roundHalfEven (q / quantum q)| ≤ 2 ^ 53 := by
  have h := abs_div_quantum_lt q
  rw [← abs_of_pos (quantum_pos q), ← abs_div, abs_lt] at h
  have h53 : (2 : ℚ) ^ (53 : ℤ) = (((2 : ℤ) ^ 53 : ℤ) : ℚ) := two_zpow_intCast 53
  have h1 : roundHalfEven (q / quantum q) ≤ roundHalfEven ((((2 : ℤ) ^ 53 : ℤ)) : ℚ) :=
    roundHalfEven_mono (by rw [← h53]; exact le_of_lt h.2)
  have h2 : roundHalfEven (((-(2 : ℤ) ^ 53 : ℤ)) : ℚ) ≤ roundHalfEven (q / quantum q) :=
    roundHalfEven_mono (by push_cast; rw [h53] at h; push_cast at h; exact le_of_lt h.1)
  rw [roundHalfEven_intCast] at h1 h2
  rw [abs_le]
  constructor <;> omega

/-- Rounding lands on the grid: rounding again changes nothing. -/
theorem roundedValue_idem (q : ℚ) : roundedValue (roundedValue q) = roundedValue q := by
  have hm := abs_roundHalfEven_div_quantum_le q
  have hk : -1074 ≤ binadeExponent q - 52 := by
    have := binadeExponent_ge q
    omega
  have hval : roundedValue q =
      (roundHalfEven (q / quantum q) : ℚ) * (2 : ℚ) ^ (binadeExponent q - 52) := rfl
  rcases lt_or_eq_of_le hm with hlt | heq
  · rw [hval]
    exact roundedValue_mul_zpow _ _ hlt hk
  · have hshift : ∀ s : ℤ, |s| = 1 → roundHalfEven (q / quantum q) = s * 2 ^ 53 →
        roundedValue (roundedValue q) = roundedValue q := by
      intro s hs hm53
      have hval2 : roundedValue q =
          ((s * 2 ^ 52 : ℤ) : ℚ) * (2 : ℚ) ^ (binadeExponent q - 52 + 1) := by
        rw [hval, hm53, zpow_add₀ (by norm_num)]
        push_cast
        ring
      rw [hval2]
      apply roundedValue_mul_zpow
      · rw [abs_mul, hs]
        norm_num
      · omega
    rcases abs_cases (roundHalfEven (q / quantum q)) with ⟨h1, _⟩ | ⟨h1, _⟩
    · exact hshift 1 (by norm_num) (by omega)
    · exact hshift (-1) (by norm_num) (by omega)

/-! ## Rounding to binary64 -/

theorem roundToDouble_of_lt {q : ℚ} (h1 : roundedValue q < (2 : ℚ) ^ 1024)
    (h2 : -(2 : ℚ) ^ 1024 < roundedValue q) :
    roundToDouble q = JSNumber.finite (roundedValue q) := by
  unfold roundToDouble
  rw [if_neg (not_le.mpr h1), if_neg (not_le.mpr h2)]

theorem roundToDouble_eq_finite {q v : ℚ} (h : roundToDouble q = JSNumber.finite v) :
    v = roundedValue q ∧ roundedValue q < (2 : ℚ) ^ 1024 ∧ -(2 : ℚ) ^ 1024 < roundedValue q := by
  unfold roundToDouble at h
  split_ifs at h with h1 h2
  injection h with h
  exact ⟨h.symm, not_le.mp h1, not_le.mp h2⟩

theorem roundToDouble_zero : roundToDouble 0 = JSNumber.finite 0 := by
  have h := roundToDouble_of_lt (q := 0) (by rw [roundedValue_zero]; positivity)
    (by rw [roundedValue_zero]; simp)
  rw [h, roundedValue_zero]

/-- A value `n * 2 ^ k` with `|n| < 2 ^ 53`, `k ≥ -1074`, below `2 ^ 1024` in size, is
a binary64 value: rounding returns it. -/
theorem roundToDouble_exact (q : ℚ) (n k : ℤ) (hq : q = (n : ℚ) * (2 : ℚ) ^ k)
    (hn : |n| < 2 ^ 53) (hk : -1074 ≤ k) (hlt : |q| < (2 : ℚ) ^ 1024) :
    roundToDouble q = JSNumber.finite q := by
  have hv : roundedValue q = q := by
    rw [hq]
    exact roundedValue_mul_zpow n k hn hk
  rw [abs_lt] at hlt
  have h := roundToDouble_of_lt (q := q) (by rw [hv]; exact hlt.2) (by rw [hv]; exact hlt.1)
  rw [h, hv]

theorem roundToDouble_intCast (n : ℤ) (hn : |n| < 2 ^ 53) :
    roundToDouble (n : ℚ) = JSNumber.finite (n : ℚ) := by
  apply roundToDouble_exact _ n 0 (by simp) hn (by norm_num)
  have h1 : |(n : ℚ)| < (((2 : ℤ) ^ 53 : ℤ) : ℚ) := by
    have : ((|n| : ℤ) : ℚ) < (((2 : ℤ) ^ 53 : ℤ) : ℚ) := by exact_mod_cast hn
    simpa using this
  have h2 : (((2 : ℤ) ^ 53 : ℤ) : ℚ) ≤ (2 : ℚ) ^ 1024 := by
    norm_num
  exact lt_of_lt_of_le h1 h2

/-- Rounding to binary64 is idempotent. -/
theorem roundToDouble_idem {q v : ℚ} (h : roundToDouble q = JSNumber.finite v) :
    roundToDouble v = JSNumber.finite v := by
  obtain ⟨hv, h1, h2⟩ := roundToDouble_eq_finite h
  have hi : roundedValue v = v := by rw [hv, roundedValue_idem]
  have := roundToDouble_of_lt (q := v) (by rw [hi, hv]; exact h1) (by rw [hi, hv]; exact h2)
  rw [this, hi]

theorem clamp_mono (M a b : ℚ) (h : a ≤ b) :
    JSNumber.le
      (if M ≤ a then JSNumber.posInf else if a ≤ -M then JSNumber.negInf else JSNumber.finite a)
      (if M ≤ b then JSNumber.posInf else if b ≤ -M then JSNumber.negInf
        else JSNumber.finite b) := by
  split_ifs <;> simp only [JSNumber.le] <;> first | trivial | linarith

/-- Rounding to binary64 is monotone. -/
theorem roundToDouble_mono {x y : ℚ} (hxy : x ≤ y) :
    (roundToDouble x).le (roundToDouble y) :=
  clamp_mono _ _ _ (roundedValue_mono hxy)

/-- The exact value `x` with `2 ^ e ≤ x < 2 ^ (e + 1)`, `e ≥ -1022`, rounds to the
multiple `n * 2 ^ (e - 52)` that is less than half a spacing away. -/
theorem roundToDouble_of_close (x : ℚ) (e n : ℤ) (he : -1022 ≤ e)
    (hL : (2 : ℚ) ^ e ≤ x) (hU : x < (2 : ℚ) ^ (e + 1))
    (hn : |x / (2 : ℚ) ^ (e - 52) - (n : ℚ)| < 1 / 2)
    (hfin : |(n : ℚ) * (2 : ℚ) ^ (e - 52)| < (2 : ℚ) ^ 1024) :
    roundToDouble x = JSNumber.finite ((n : ℚ) * (2 : ℚ) ^ (e - 52)) := by
  have hxpos : 0 < x := lt_of_lt_of_le (zpow_pos (by norm_num) e) hL
  have hexp : binadeExponent x = e :=
    binadeExponent_eq (ne_of_gt hxpos) he (Or.inl (by rwa [abs_of_pos hxpos]))
      (by rwa [abs_of_pos hxpos])
  have hq : quantum x = (2 : ℚ) ^ (e - 52) := by unfold quantum; rw [hexp]
  have hv : roundedValue x = (n : ℚ) * (2 : ℚ) ^ (e - 52) := by
    unfold roundedValue
    rw [hq, roundHalfEven_eq_of_abs_lt _ n hn]
  rw [abs_lt] at hfin
  have := roundToDouble_of_lt (q := x) (by rw [hv]; exact hfin.2) (by rw [hv]; exact hfin.1)
  rw [this, hv]

/-! ## Evaluations at the inputs of the examples -/

theorem roundToDouble_5710815_div_2 :
    roundToDouble (5710815 / 2) = JSNumber.finite (5710815 / 2) :=
  roundToDouble_exact _ 5710815 (-1) (by norm_num) (by norm_num) (by norm_num)
    (by rw [abs_of_pos (by norm_num)]; norm_num)

theorem roundToDouble_quotient_2379 :
    roundToDouble (5710815 / 2 / 1200) = JSNumber.finite (5232589580481331 / 2199023255552) := by
  have h := roundToDouble_of_close (5710815 / 2 / 1200) 11 5232589580481331 (by norm_num)
    (by norm_num) (by norm_num) (by rw [abs_lt]; constructor <;> norm_num)
    (by rw [abs_of_pos (by positivity)]; norm_num)
  rw [h]
  congr 1
  norm_num

theorem div_finite (a b : ℚ) (hb : b ≠ 0) :
    (JSNumber.finite a).div (JSNumber.finite b) = roundToDouble (a / b) := by
  simp only [JSNumber.div, if_neg hb]

theorem mul_finite (a b : ℚ) :
    (JSNumber.finite a).mul (JSNumber.finite b) = roundToDouble (a * b) := rfl

theorem add_finite (a b : ℚ) :
    (JSNumber.finite a).add (JSNumber.finite b) = roundToDouble (a + b) := rfl

theorem calculateMonthlyInterest_finite (b m r : ℚ) :
    calculateMonthlyInterest (JSNumber.finite b) (JSNumber.finite m) (JSNumber.finite r) =
      mathRound ((((roundToDouble (b * r)).mul (JSNumber.finite m))).div
        (JSNumber.finite 1200)) := rfl

/-- The interest on `346110` at `8.25` for month `1`, evaluated in binary64. -/
theorem calculateMonthlyInterest_346110_1 :
    calculateMonthlyInterest (JSNumber.finite 346110) (JSNumber.finite 1)
      (JSNumber.finite (33 / 4)) = JSNumber.finite 2380 := by
  have h1 : (346110 : ℚ) * (33 / 4) = 5710815 / 2 := by norm_num
  have h2 : (5710815 / 2 : ℚ) * 1 = 5710815 / 2 := by norm_num
  have h3 : ⌊(5232589580481331 / 2199023255552 : ℚ) + 1 / 2⌋ = 2380 := by
    rw [Int.floor_eq_iff]
    norm_num
  rw [calculateMonthlyInterest_finite, h1, roundToDouble_5710815_div_2, mul_finite, h2,
    roundToDouble_5710815_div_2, div_finite _ _ (by norm_num), roundToDouble_quotient_2379]
  simp only [mathRound, h3]
  norm_num

/-! ## Order and the arithmetic operations -/

theorem roundToDouble_ne_nan (q : ℚ) : roundToDouble q ≠ JSNumber.nan := by
  unfold roundToDouble
  split_ifs <;> simp

theorem le_posInf {x : JSNumber} (hx : x ≠ JSNumber.nan) : x.le JSNumber.posInf := by
  cases x <;> simp_all [JSNumber.le]

theorem negInf_le {x : JSNumber} (hx : x ≠ JSNumber.nan) : JSNumber.negInf.le x := by
  cases x <;> simp_all [JSNumber.le]

theorem le_refl_of_ne_nan {x : JSNumber} (hx : x ≠ JSNumber.nan) : x.le x := by
  cases x <;> simp_all [JSNumber.le]

theorem ne_nan_of_le_left {x y : JSNumber} (h : x.le y) : x ≠ JSNumber.nan := by
  intro hx
  subst hx
  cases y <;> simp [JSNumber.le] at h

theorem ne_nan_of_le_right {x y : JSNumber} (h : x.le y) : y ≠ JSNumber.nan := by
  intro hy
  subst hy
  cases x <;> simp [JSNumber.le] at h

/-- A Number `≥ 0` is a finite non-negative value or `+Infinity`. -/
theorem nonneg_cases {x : JSNumber} (h : (JSNumber.finite 0).le x) :
    (∃ a : ℚ, 0 ≤ a ∧ x = JSNumber.finite a) ∨ x = JSNumber.posInf := by
  cases x with
  | finite a => exact Or.inl ⟨a, h, rfl⟩
  | posInf => exact Or.inr rfl
  | negInf => simp [JSNumber.le] at h
  | nan => simp [JSNumber.le] at h

theorem roundToDouble_nonneg {q : ℚ} (h : 0 ≤ q) : (JSNumber.finite 0).le (roundToDouble q) := by
  have := roundToDouble_mono h
  rwa [roundToDouble_zero] at this

theorem isDouble_roundToDouble (q : ℚ) : (roundToDouble q).IsDouble := by
  cases h : roundToDouble q with
  | finite v => exact roundToDouble_idem h
  | posInf => trivial
  | negInf => trivial
  | nan => trivial

theorem isDouble_add (x y : JSNumber) : (x.add y).IsDouble := by
  cases x <;> cases y <;> first | exact isDouble_roundToDouble _ | trivial

/-- Division by the literal `1200` is monotone. -/
theorem div_1200_mono {x y : JSNumber} (h : x.le y) :
    (x.div (JSNumber.finite 1200)).le (y.div (JSNumber.finite 1200)) := by
  have h1200 : (1200 : ℚ) ≠ 0 := by norm_num
  have hpos : (0 : ℚ) ≤ 1200 := by norm_num
  cases x <;> cases y <;> simp only [JSNumber.le] at h
  · rw [div_finite _ _ h1200, div_finite _ _ h1200]
    exact roundToDouble_mono (div_le_div_of_nonneg_right h hpos)
  · rw [div_finite _ _ h1200]
    simp only [JSNumber.div, if_pos hpos]
    exact le_posInf (roundToDouble_ne_nan _)
  · simp only [JSNumber.div, if_pos hpos, JSNumber.le]
  · rw [div_finite _ _ h1200]
    simp only [JSNumber.div, if_pos hpos]
    exact negInf_le (roundToDouble_ne_nan _)
  · simp only [JSNumber.div, if_pos hpos, JSNumber.le]
  · simp only [JSNumber.div, if_pos hpos, JSNumber.le]

/-- `Math.round` is monotone. -/
theorem mathRound_mono {x y : JSNumber} (h : x.le y) : (mathRound x).le (mathRound y) := by
  cases x <;> cases y <;> simp only [JSNumber.le] at h <;> simp only [mathRound, JSNumber.le]
  rename_i a b
  have : ⌊a + 1 / 2⌋ ≤ ⌊b + 1 / 2⌋ := Int.floor_mono (add_le_add_right h (1 / 2))
  exact_mod_cast this

theorem mathRound_zero : mathRound (JSNumber.finite 0) = JSNumber.finite 0 := by
  have h : ⌊(0 : ℚ) + 1 / 2⌋ = 0 := by
    rw [Int.floor_eq_iff]
    norm_num
  simp only [mathRound, h]
  norm_num

/-- Adding to a non-negative Number is monotone in the non-negative summand. -/
theorem add_mono_right {c i j : JSNumber} (hc : (JSNumber.finite 0).le c)
    (hi : (JSNumber.finite 0).le i) (hij : i.le j) : (c.add i).le (c.add j) := by
  have hj := ne_nan_of_le_right hij
  rcases nonneg_cases hc with ⟨a, _, rfl⟩ | rfl <;>
    rcases nonneg_cases hi with ⟨b, _, rfl⟩ | rfl <;> cases j <;>
    simp only [JSNumber.le] at hij <;> simp only [JSNumber.add, JSNumber.le]
  · exact roundToDouble_mono (by linarith)
  · exact le_posInf (roundToDouble_ne_nan _)

/-- Adding a non-negative Number to a binary64 value does not decrease it. -/
theorem le_add_of_nonneg {c i : JSNumber} (hc : (JSNumber.finite 0).le c) (hd : c.IsDouble)
    (hi : (JSNumber.finite 0).le i) : c.le (c.add i) := by
  rcases nonneg_cases hc with ⟨a, _, rfl⟩ | rfl <;>
    rcases nonneg_cases hi with ⟨b, hb, rfl⟩ | rfl <;> simp only [JSNumber.add, JSNumber.le]
  have := roundToDouble_mono (x := a) (y := a + b) (by linarith)
  rwa [show roundToDouble a = JSNumber.finite a from hd] at this

theorem add_nonneg {c i : JSNumber} (hc : (JSNumber.finite 0).le c)
    (hi : (JSNumber.finite 0).le i) : (JSNumber.finite 0).le (c.add i) := by
  rcases nonneg_cases hc with ⟨a, ha, rfl⟩ | rfl <;>
    rcases nonneg_cases hi with ⟨b, hb, rfl⟩ | rfl <;> simp only [JSNumber.add, JSNumber.le]
  exact roundToDouble_nonneg (by linarith)

/-- The product by a month number is monotone in the month number, for a
non-negative first factor; an infinite first factor needs a positive month. -/
theorem mul_month_mono {p : JSNumber} (hp : (JSNumber.finite 0).le p) {m n : ℚ}
    (hmn : m ≤ n) (hinf : p = JSNumber.posInf → 0 < m) :
    (p.mul (JSNumber.finite m)).le (p.mul (JSNumber.finite n)) := by
  rcases nonneg_cases hp with ⟨a, ha, rfl⟩ | rfl
  · exact roundToDouble_mono (mul_le_mul_of_nonneg_left hmn ha)
  · have hm0 := hinf rfl
    have hn0 : 0 < n := lt_of_lt_of_le hm0 hmn
    simp only [JSNumber.mul, if_neg (ne_of_gt hm0), if_neg (ne_of_gt hn0), if_pos hm0,
      if_pos hn0, JSNumber.le]

theorem mul_month_nonneg {p : JSNumber} (hp : (JSNumber.finite 0).le p) {m : ℚ}
    (hm : 0 ≤ m) (hinf : p = JSNumber.posInf → 0 < m) :
    (JSNumber.finite 0).le (p.mul (JSNumber.finite m)) := by
  rcases nonneg_cases hp with ⟨a, ha, rfl⟩ | rfl
  · exact roundToDouble_nonneg (mul_nonneg ha hm)
  · have hm0 := hinf rfl
    simp only [JSNumber.mul, if_neg (ne_of_gt hm0), if_pos hm0, JSNumber.le]

theorem div_1200_zero :
    (JSNumber.finite 0).div (JSNumber.finite 1200) = JSNumber.finite 0 := by
  rw [div_finite _ _ (by norm_num), zero_div, roundToDouble_zero]

/-- With a non-negative product `openingBalance * annualRate`, the interest is
non-negative. -/
theorem calculateMonthlyInterest_nonneg {c r : JSNumber} (hp : (JSNumber.finite 0).le (c.mul r))
    {m : ℚ} (hm : 0 ≤ m) (hinf : c.mul r = JSNumber.posInf → 0 < m) :
    (JSNumber.finite 0).le (calculateMonthlyInterest c (JSNumber.finite m) r) := by
  have h1 := mathRound_mono (div_1200_mono (mul_month_nonneg hp hm hinf))
  rwa [div_1200_zero, mathRound_zero] at h1

/-- With a non-negative product `openingBalance * annualRate`, the interest does
not decrease with the month number. -/
theorem calculateMonthlyInterest_mono_month {c r : JSNumber}
    (hp : (JSNumber.finite 0).le (c.mul r)) {m n : ℚ} (hmn : m ≤ n)
    (hinf : c.mul r = JSNumber.posInf → 0 < m) :
    (calculateMonthlyInterest c (JSNumber.finite m) r).le
      (calculateMonthlyInterest c (JSNumber.finite n) r) :=
  mathRound_mono (div_1200_mono (mul_month_mono hp hmn hinf))

/-! ## Structure of the tables -/

theorem calculateYearTable_length (r b : JSNumber) (ps : List PeriodDefinition) :
    (calculateYearTable r b ps).length = ps.length := by
  simp [calculateYearTable]

theorem closingBalance_year2024 (r b : JSNumber) :
    closingBalance (calculateYearTable r b year2024Months)
      = some (b.add (calculateMonthlyInterest b (JSNumber.finite 12) r)) := by
  simp [closingBalance, calculateYearTable, year2024Months]

theorem calculatePensionTables_eq (config : Config) :
    calculatePensionTables config = some
      { table833 :=
          calculateYearTable config.annualRate config.openingBalance833 year2024Months ++
          calculateYearTable config.annualRate
            (config.openingBalance833.add
              (calculateMonthlyInterest config.openingBalance833 (JSNumber.finite 12)
                config.annualRate))
            year2025Months
        table116 :=
          calculateYearTable config.annualRate config.openingBalance116 year2024Months ++
          calculateYearTable config.annualRate
            (config.openingBalance116.add
              (calculateMonthlyInterest config.openingBalance116 (JSNumber.finite 12)
                config.annualRate))
            year2025Months } := by
  simp [calculatePensionTables, closingBalance_year2024]

/-! ## The interest formula -/

theorem floor_add_half_sub_le (y : ℚ) : |((⌊y + 1 / 2⌋ : ℤ) : ℚ) - y| ≤ 1 / 2 := by
  have h1 := Int.floor_le (y + 1 / 2)
  have h2 := Int.lt_floor_add_one (y + 1 / 2)
  rw [abs_le]
  constructor <;> linarith

theorem floor_add_half_unique (y : ℚ) (hy : ∀ j : ℤ, y ≠ (j : ℚ) + 1 / 2) (k : ℤ)
    (hk : |(k : ℚ) - y| ≤ |((⌊y + 1 / 2⌋ : ℤ) : ℚ) - y|) : k = ⌊y + 1 / 2⌋ := by
  have h1 := Int.floor_le (y + 1 / 2)
  have h2 := Int.lt_floor_add_one (y + 1 / 2)
  have h3 : ((⌊y + 1 / 2⌋ : ℤ) : ℚ) ≠ y + 1 / 2 := by
    intro h
    apply hy (⌊y + 1 / 2⌋ - 1)
    push_cast
    linarith
  have h4 : ((⌊y + 1 / 2⌋ : ℤ) : ℚ) < y + 1 / 2 := lt_of_le_of_ne h1 h3
  have hn : |((⌊y + 1 / 2⌋ : ℤ) : ℚ) - y| < 1 / 2 := by
    rw [abs_lt]
    constructor <;> linarith
  have hk2 : |(k : ℚ) - y| < 1 / 2 := lt_of_le_of_lt hk hn
  rw [abs_lt] at hn hk2
  have h5 : ((k - ⌊y + 1 / 2⌋ : ℤ) : ℚ) < 1 := by push_cast; linarith
  have h6 : (-1 : ℚ) < ((k - ⌊y + 1 / 2⌋ : ℤ) : ℚ) := by push_cast; linarith
  have h7 : k - ⌊y + 1 / 2⌋ < 1 := by exact_mod_cast h5
  have h8 : -1 < k - ⌊y + 1 / 2⌋ := by exact_mod_cast h6
  omega

/-- The binary64 value written `0.03`. -/
theorem roundToDouble_three_hundredths :
    roundToDouble (1080863910568919 / 36028797018963968) =
      JSNumber.finite (1080863910568919 / 36028797018963968) :=
  roundToDouble_exact _ 1080863910568919 (-55) (by norm_num) (by norm_num) (by norm_num)
    (by rw [abs_of_pos (by norm_num)]; norm_num)

/-- C1 refuted at `b = 2000`, `m = 10`, `r = 0.03` (the binary64 value
`1080863910568919 / 2 ^ 55`): the product `b * r` rounds up to `60`, the code
returns `1`, while the exact `x = b*r*m/1200` is below `1/2`, so `1` is farther
than `1/2` from `x` and the nearest integer is `0`. -/
theorem calculateMonthlyInterest_not_nearest_exact :
    (JSNumber.finite (1080863910568919 / 36028797018963968)).IsDouble ∧
    calculateMonthlyInterest (JSNumber.finite 2000) (JSNumber.finite 10)
      (JSNumber.finite (1080863910568919 / 36028797018963968)) = JSNumber.finite 1 ∧
    ¬ |(1 : ℚ) - 2000 * (1080863910568919 / 36028797018963968) * 10 / 1200| ≤ 1 / 2 := by
  refine ⟨roundToDouble_three_hundredths, ?_, by rw [abs_le]; norm_num⟩
  have h1 : roundToDouble (2000 * (1080863910568919 / 36028797018963968)) =
      JSNumber.finite 60 := by
    have h := roundToDouble_of_close (2000 * (1080863910568919 / 36028797018963968)) 5
      8444249301319680 (by norm_num) (by norm_num) (by norm_num)
      (by rw [abs_lt]; constructor <;> norm_num)
      (by rw [abs_of_pos (by positivity)]; norm_num)
    rw [h]
    congr 1
    norm_num
  have h2 : roundToDouble ((60 : ℚ) * 10) = JSNumber.finite 600 := by
    have := roundToDouble_intCast 600 (by norm_num)
    norm_num at this ⊢
    exact this
  have h3 : roundToDouble ((600 : ℚ) / 1200) = JSNumber.finite (1 / 2) := by
    have := roundToDouble_exact (1 / 2) 1 (-1) (by norm_num) (by norm_num) (by norm_num)
      (by rw [abs_of_pos (by norm_num)]; norm_num)
    rw [show (600 : ℚ) / 1200 = 1 / 2 by norm_num]
    exact this
  have h4 : ⌊(1 / 2 : ℚ) + 1 / 2⌋ = 1 := by
    rw [Int.floor_eq_iff]
    norm_num
  rw [calculateMonthlyInterest_finite, h1, mul_finite, h2, div_finite _ _ (by norm_num), h3]
  simp only [mathRound, h4]
  norm_num

/-- C1 as amended: whenever the binary64 value `y` of the expression
`(b * r * m) / 1200` is finite, `calculateMonthlyInterest b m r` is an integer `n`
nearest to `y`: `|n - y| ≤ 1/2`, and when `y` is not halfway between two integers
every integer at most as far from `y` as `n` is `n` itself. -/
theorem calculateMonthlyInterest_nearest (b m r : JSNumber) (y : ℚ)
    (hy : ((b.mul r).mul m).div (JSNumber.finite 1200) = JSNumber.finite y) :
    ∃ n : ℤ, calculateMonthlyInterest b m r = JSNumber.finite (n : ℚ) ∧
      |(n : ℚ) - y| ≤ 1 / 2 ∧
      ((∀ j : ℤ, y ≠ (j : ℚ) + 1 / 2) →
        ∀ k : ℤ, |(k : ℚ) - y| ≤ |(n : ℚ) - y| → k = n) := by
  refine ⟨⌊y + 1 / 2⌋, ?_, floor_add_half_sub_le y, fun hj k hk =>
    floor_add_half_unique y hj k hk⟩
  unfold calculateMonthlyInterest
  rw [hy]
  rfl

/-- Witness for C1 at `b = 346110`, `r = 8.25`, `m = 1`: the binary64 quotient is
`5232589580481331 / 2 ^ 41` and the interest is `2380`. -/
theorem calculateMonthlyInterest_nearest_witness :
    (((JSNumber.finite 346110).mul (JSNumber.finite (33 / 4))).mul (JSNumber.finite 1)).div
        (JSNumber.finite 1200) = JSNumber.finite (5232589580481331 / 2199023255552) ∧
    calculateMonthlyInterest (JSNumber.finite 346110) (JSNumber.finite 1)
      (JSNumber.finite (33 / 4)) = JSNumber.finite 2380 ∧
    ∃ n : ℤ, calculateMonthlyInterest (JSNumber.finite 346110) (JSNumber.finite 1)
        (JSNumber.finite (33 / 4)) = JSNumber.finite (n : ℚ) ∧
      |(n : ℚ) - 5232589580481331 / 2199023255552| ≤ 1 / 2 ∧
      ((∀ j : ℤ, (5232589580481331 / 2199023255552 : ℚ) ≠ (j : ℚ) + 1 / 2) →
        ∀ k : ℤ, |(k : ℚ) - 5232589580481331 / 2199023255552|
            ≤ |(n : ℚ) - 5232589580481331 / 2199023255552| → k = n) := by
  have hy : (((JSNumber.finite 346110).mul (JSNumber.finite (33 / 4))).mul
      (JSNumber.finite 1)).div (JSNumber.finite 1200) =
        JSNumber.finite (5232589580481331 / 2199023255552) := by
    have h1 : (346110 : ℚ) * (33 / 4) = 5710815 / 2 := by norm_num
    have h2 : (5710815 / 2 : ℚ) * 1 = 5710815 / 2 := by norm_num
    rw [mul_finite, h1, roundToDouble_5710815_div_2, mul_finite, h2,
      roundToDouble_5710815_div_2, div_finite _ _ (by norm_num), roundToDouble_quotient_2379]
  exact ⟨hy, calculateMonthlyInterest_346110_1,
    calculateMonthlyInterest_nearest (JSNumber.finite 346110) (JSNumber.finite 1)
      (JSNumber.finite (33 / 4)) _ hy⟩

/-! ## Year tables -/

/-- C2: `calculateYearTable` returns one row per period, in the order of the
periods; row `i` is `{ paymentDate: ps[i].date, openingBalance: b, interest:
calculateMonthlyInterest(b, ps[i].monthNumber, r), totalPayable: b + interest }`,
with the same `b` in every row; at `b = 346110`, `r = 8.25`, month `1` the row has
interest `2380` and total `348490`. -/
theorem calculateYearTable_rows (b r : JSNumber) (ps : List PeriodDefinition) :
    (calculateYearTable r b ps).length = ps.length ∧
    (∀ i : ℕ, (calculateYearTable r b ps)[i]? =
      (ps[i]?).map fun p =>
        { paymentDate := p.date
          openingBalance := b
          interest := calculateMonthlyInterest b p.monthNumber r
          totalPayable := b.add (calculateMonthlyInterest b p.monthNumber r) }) ∧
    calculateYearTable (JSNumber.finite (33 / 4)) (JSNumber.finite 346110)
        [⟨"30-04-2024", JSNumber.finite 1⟩]
      = [⟨"30-04-2024", JSNumber.finite 346110, JSNumber.finite 2380,
          JSNumber.finite 348490⟩] := by
  refine ⟨calculateYearTable_length r b ps, fun i => ?_, ?_⟩
  · simp [calculateYearTable]
  · have hsum : roundToDouble ((346110 : ℚ) + 2380) = JSNumber.finite 348490 := by
      have := roundToDouble_intCast 348490 (by norm_num)
      norm_num at this ⊢
      exact this
    simp only [calculateYearTable, List.map, calculateMonthlyInterest_346110_1, add_finite,
      hsum]

/-! ## The two windows -/

/-- C3: for every pair of opening balances and every rate `calculatePensionTables`
returns, and each of its two tables has exactly 17 rows: rows 0..12 are the year
table over the 13 periods with month indices 0,1,...,12 and rows 13..16 the year
table over the 4 periods with month indices 1,2,3,4, first window first. -/
theorem calculatePensionTables_windows (config : Config) :
    year2024Months.map (fun p => p.monthNumber) =
      [JSNumber.finite 0, JSNumber.finite 1, JSNumber.finite 2, JSNumber.finite 3,
        JSNumber.finite 4, JSNumber.finite 5, JSNumber.finite 6, JSNumber.finite 7,
        JSNumber.finite 8, JSNumber.finite 9, JSNumber.finite 10, JSNumber.finite 11,
        JSNumber.finite 12] ∧
    year2025Months.map (fun p => p.monthNumber) =
      [JSNumber.finite 1, JSNumber.finite 2, JSNumber.finite 3, JSNumber.finite 4] ∧
    ∃ tables, calculatePensionTables config = some tables ∧
      tables.table833.length = 17 ∧ tables.table116.length = 17 ∧
      tables.table833.take 13 =
        calculateYearTable config.annualRate config.openingBalance833 year2024Months ∧
      tables.table833.drop 13 =
        calculateYearTable config.annualRate
          (config.openingBalance833.add
            (calculateMonthlyInterest config.openingBalance833 (JSNumber.finite 12)
              config.annualRate))
          year2025Months ∧
      tables.table116.take 13 =
        calculateYearTable config.annualRate config.openingBalance116 year2024Months ∧
      tables.table116.drop 13 =
        calculateYearTable config.annualRate
          (config.openingBalance116.add
            (calculateMonthlyInterest config.openingBalance116 (JSNumber.finite 12)
              config.annualRate))
          year2025Months := by
  refine ⟨by simp [year2024Months], by simp [year2025Months], _,
    calculatePensionTables_eq config, ?_, ?_, ?_, ?_, ?_, ?_⟩
  · simp [calculateYearTable_length, year2024Months, year2025Months]
  · simp [calculateYearTable_length, year2024Months, year2025Months]
  · exact List.take_left' (by simp [calculateYearTable_length, year2024Months])
  · exact List.drop_left' (by simp [calculateYearTable_length, year2024Months])
  · exact List.take_left' (by simp [calculateYearTable_length, year2024Months])
  · exact List.drop_left' (by simp [calculateYearTable_length, year2024Months])

/-- C4: window chaining. In each table returned by `calculatePensionTables` rows
0..12 carry the given opening balance `b` and rows 13..16 carry
`b + calculateMonthlyInterest(b, 12, r)`, which is the `totalPayable` of row 12. -/
theorem calculatePensionTables_chaining (config : Config) :
    ∃ tables, calculatePensionTables config = some tables ∧
      tables.table833.map (fun row => row.openingBalance) =
        List.replicate 13 config.openingBalance833 ++
        List.replicate 4 (config.openingBalance833.add
          (calculateMonthlyInterest config.openingBalance833 (JSNumber.finite 12)
            config.annualRate)) ∧
      (tables.table833[12]?).map (fun row => row.totalPayable) =
        some (config.openingBalance833.add
          (calculateMonthlyInterest config.openingBalance833 (JSNumber.finite 12)
            config.annualRate)) ∧
      (tables.table833[13]?).map (fun row => row.openingBalance) =
        (tables.table833[12]?).map (fun row => row.totalPayable) ∧
      tables.table116.map (fun row => row.openingBalance) =
        List.replicate 13 config.openingBalance116 ++
        List.replicate 4 (config.openingBalance116.add
          (calculateMonthlyInterest config.openingBalance116 (JSNumber.finite 12)
            config.annualRate)) ∧
      (tables.table116[12]?).map (fun row => row.totalPayable) =
        some (config.openingBalance116.add
          (calculateMonthlyInterest config.openingBalance116 (JSNumber.finite 12)
            config.annualRate)) ∧
      (tables.table116[13]?).map (fun row => row.openingBalance) =
        (tables.table116[12]?).map (fun row => row.totalPayable) := by
  refine ⟨_, calculatePensionTables_eq config, ?_, ?_, ?_, ?_, ?_, ?_⟩ <;>
    simp [calculateYearTable, year2024Months, year2025Months, List.replicate]

/-! ## Ties -/

/-- C5 at the input `b = -100`, `m = 1`, `r = 6`: every intermediate value is
exact in binary64 and the quotient is `-1/2`, halfway between `-1` and `0`;
`calculateMonthlyInterest` returns `0`, the neighbour nearer to zero, while the
spreadsheet `ROUND(x, 0)` of the source comment gives `-1`. -/
theorem calculateMonthlyInterest_negative_tie :
    ((-100 : ℚ) * 6 * 1) / 1200 = ((-1 : ℤ) : ℚ) + 1 / 2 ∧
    calculateMonthlyInterest (JSNumber.finite (-100)) (JSNumber.finite 1) (JSNumber.finite 6)
      = JSNumber.finite 0 ∧
    spreadsheetRound (((-100 : ℚ) * 6 * 1) / 1200) = -1 := by
  refine ⟨by norm_num, ?_, ?_⟩
  · have h1 : roundToDouble ((-100 : ℚ) * 6) = JSNumber.finite (-600) := by
      have := roundToDouble_intCast (-600) (by norm_num)
      norm_num at this ⊢
      exact this
    have h2 : roundToDouble ((-600 : ℚ) * 1) = JSNumber.finite (-600) := by
      have := roundToDouble_intCast (-600) (by norm_num)
      norm_num at this ⊢
      exact this
    have h3 : roundToDouble ((-600 : ℚ) / 1200) = JSNumber.finite (-1 / 2) := by
      have := roundToDouble_exact (-1 / 2) (-1) (-1) (by norm_num) (by norm_num)
        (by norm_num) (by rw [abs_of_neg (by norm_num)]; norm_num)
      rw [show (-600 : ℚ) / 1200 = -1 / 2 by norm_num]
      exact this
    have h4 : ⌊(-1 / 2 : ℚ) + 1 / 2⌋ = 0 := by
      rw [Int.floor_eq_iff]
      norm_num
    rw [calculateMonthlyInterest_finite, h1, mul_finite, h2, div_finite _ _ (by norm_num), h3]
    simp only [mathRound, h4]
    norm_num
  · have h : ¬ (0 : ℚ) ≤ ((-100 : ℚ) * 6 * 1) / 1200 := by norm_num
    unfold spreadsheetRound
    rw [if_neg h, neg_eq_iff_eq_neg, Int.floor_eq_iff]
    norm_num

/-! ## Overflow -/

theorem roundToDouble_two_pow_1023 :
    roundToDouble ((2 : ℚ) ^ 1023) = JSNumber.finite ((2 : ℚ) ^ 1023) := by
  apply roundToDouble_exact _ 1 1023 _ (by norm_num) (by norm_num)
  · rw [abs_of_pos (by positivity)]
    exact pow_lt_pow_right₀ (by norm_num) (by norm_num)
  · rw [Int.cast_one, one_mul]
    exact (zpow_natCast (2 : ℚ) 1023).symm

theorem roundToDouble_two : roundToDouble 2 = JSNumber.finite 2 := by
  have := roundToDouble_intCast 2 (by norm_num)
  norm_num at this ⊢
  exact this

/-- The product `2 ^ 1023 * 2` overflows: it rounds to `+Infinity`. -/
theorem roundToDouble_overflow : roundToDouble ((2 : ℚ) ^ 1023 * 2) = JSNumber.posInf := by
  have hx : (2 : ℚ) ^ 1023 * 2 = ((1 : ℤ) : ℚ) * (2 : ℚ) ^ (1024 : ℤ) := by
    rw [Int.cast_one, one_mul, ← pow_succ]
    exact (zpow_natCast (2 : ℚ) 1024).symm
  have hv : roundedValue ((2 : ℚ) ^ 1023 * 2) = (2 : ℚ) ^ 1024 := by
    rw [hx, roundedValue_mul_zpow 1 1024 (by norm_num) (by norm_num), Int.cast_one, one_mul]
    exact zpow_natCast (2 : ℚ) 1024
  unfold roundToDouble
  rw [if_pos (le_of_eq hv.symm)]

/-- At `b = 2 ^ 1023`, `r = 2` the product `b * r` is `+Infinity`, `Infinity * 0` is
`NaN`, and the interest for month `0` is `NaN`. -/
theorem calculateMonthlyInterest_overflow :
    calculateMonthlyInterest (JSNumber.finite ((2 : ℚ) ^ 1023)) (JSNumber.finite 0)
      (JSNumber.finite 2) = JSNumber.nan := by
  rw [calculateMonthlyInterest_finite, roundToDouble_overflow]
  simp [JSNumber.mul, JSNumber.div, mathRound]

/-! ## The zero month -/

/-- C6 refuted at `b = 2 ^ 1023`, `r = 2`, both binary64 values: the interest for
month `0` is `NaN`, not `0`. -/
theorem zero_month_interest_is_nan :
    (JSNumber.finite ((2 : ℚ) ^ 1023)).IsDouble ∧ (JSNumber.finite 2).IsDouble ∧
    calculateMonthlyInterest (JSNumber.finite ((2 : ℚ) ^ 1023)) (JSNumber.finite 0)
      (JSNumber.finite 2) = JSNumber.nan ∧
    calculateMonthlyInterest (JSNumber.finite ((2 : ℚ) ^ 1023)) (JSNumber.finite 0)
      (JSNumber.finite 2) ≠ JSNumber.finite 0 := by
  refine ⟨roundToDouble_two_pow_1023, roundToDouble_two, calculateMonthlyInterest_overflow, ?_⟩
  rw [calculateMonthlyInterest_overflow]
  simp

theorem calculateMonthlyInterest_zero_of_finite {b r : JSNumber} {p : ℚ}
    (hp : b.mul r = JSNumber.finite p) :
    calculateMonthlyInterest b (JSNumber.finite 0) r = JSNumber.finite 0 := by
  unfold calculateMonthlyInterest
  rw [hp, mul_finite, mul_zero, roundToDouble_zero, div_1200_zero, mathRound_zero]

/-- C6 as amended: `calculateMonthlyInterest b 0 r = 0` for all `b` and `r` whose
product `b * r` is finite; and when both opening balances are finite binary64
values whose product with the rate is finite, the first row of each schedule has
interest `0` and `totalPayable` equal to its opening balance. -/
theorem calculateMonthlyInterest_zero_month (config : Config) (b833 b116 p833 p116 : ℚ)
    (h833 : config.openingBalance833 = JSNumber.finite b833)
    (h116 : config.openingBalance116 = JSNumber.finite b116)
    (hd833 : config.openingBalance833.IsDouble) (hd116 : config.openingBalance116.IsDouble)
    (hp833 : config.openingBalance833.mul config.annualRate = JSNumber.finite p833)
    (hp116 : config.openingBalance116.mul config.annualRate = JSNumber.finite p116) :
    (∀ (b r : JSNumber) (p : ℚ), b.mul r = JSNumber.finite p →
      calculateMonthlyInterest b (JSNumber.finite 0) r = JSNumber.finite 0) ∧
    ∃ tables, calculatePensionTables config = some tables ∧
      tables.table833.head? =
        some ⟨"31-03-2024", config.openingBalance833, JSNumber.finite 0,
          config.openingBalance833⟩ ∧
      tables.table116.head? =
        some ⟨"31-03-2024", config.openingBalance116, JSNumber.finite 0,
          config.openingBalance116⟩ := by
  have hadd : ∀ (c : JSNumber) (q : ℚ), c = JSNumber.finite q → c.IsDouble →
      c.add (JSNumber.finite 0) = c := by
    intro c q hc hd
    subst hc
    rw [add_finite, add_zero]
    exact hd
  refine ⟨fun b r p hp => calculateMonthlyInterest_zero_of_finite hp, _,
    calculatePensionTables_eq config, ?_, ?_⟩
  · simp only [calculateYearTable, year2024Months, List.map, List.cons_append, List.head?,
      calculateMonthlyInterest_zero_of_finite hp833, hadd _ _ h833 hd833]
  · simp only [calculateYearTable, year2024Months, List.map, List.cons_append, List.head?,
      calculateMonthlyInterest_zero_of_finite hp116, hadd _ _ h116 hd116]

theorem roundToDouble_413391_div_4 :
    roundToDouble (413391 / 4) = JSNumber.finite (413391 / 4) :=
  roundToDouble_exact _ 413391 (-2) (by norm_num) (by norm_num) (by norm_num)
    (by rw [abs_of_pos (by norm_num)]; norm_num)

theorem mul_346110_rate :
    (JSNumber.finite 346110).mul (JSNumber.finite (33 / 4)) = JSNumber.finite (5710815 / 2) := by
  rw [mul_finite, show (346110 : ℚ) * (33 / 4) = 5710815 / 2 by norm_num,
    roundToDouble_5710815_div_2]

theorem mul_12527_rate :
    (JSNumber.finite 12527).mul (JSNumber.finite (33 / 4)) = JSNumber.finite (413391 / 4) := by
  rw [mul_finite, show (12527 : ℚ) * (33 / 4) = 413391 / 4 by norm_num,
    roundToDouble_413391_div_4]

theorem isDouble_346110 : (JSNumber.finite 346110).IsDouble := by
  have := roundToDouble_intCast 346110 (by norm_num)
  norm_num at this
  exact this

theorem isDouble_12527 : (JSNumber.finite 12527).IsDouble := by
  have := roundToDouble_intCast 12527 (by norm_num)
  norm_num at this
  exact this

/-- Witness for C6 at the balances `346110`, `12527` and the rate `8.25`: month `0`
gives interest `0` and `totalPayable` `346110`. -/
theorem calculateMonthlyInterest_zero_month_witness :
    (JSNumber.finite 346110).IsDouble ∧ (JSNumber.finite 12527).IsDouble ∧
    (JSNumber.finite 346110).mul (JSNumber.finite (33 / 4)) = JSNumber.finite (5710815 / 2) ∧
    (JSNumber.finite 12527).mul (JSNumber.finite (33 / 4)) = JSNumber.finite (413391 / 4) ∧
    calculateMonthlyInterest (JSNumber.finite 346110) (JSNumber.finite 0)
      (JSNumber.finite (33 / 4)) = JSNumber.finite 0 ∧
    ∃ tables, calculatePensionTables
        ⟨JSNumber.finite 346110, JSNumber.finite 12527, JSNumber.finite (33 / 4)⟩ = some tables ∧
      tables.table833.head? =
        some ⟨"31-03-2024", JSNumber.finite 346110, JSNumber.finite 0, JSNumber.finite 346110⟩ ∧
      tables.table116.head? =
        some ⟨"31-03-2024", JSNumber.finite 12527, JSNumber.finite 0, JSNumber.finite 12527⟩ :=
  have h := calculateMonthlyInterest_zero_month
    ⟨JSNumber.finite 346110, JSNumber.finite 12527, JSNumber.finite (33 / 4)⟩
    346110 12527 (5710815 / 2) (413391 / 4) rfl rfl isDouble_346110 isDouble_12527
    mul_346110_rate mul_12527_rate
  ⟨isDouble_346110, isDouble_12527, mul_346110_rate, mul_12527_rate,
    h.1 _ _ _ mul_346110_rate, h.2⟩

/-! ## Monotonicity -/

/-- A non-negative Number times a non-negative finite rate is non-negative, the
product `Infinity * 0` apart. -/
theorem mul_rate_nonneg {c : JSNumber} (hc : (JSNumber.finite 0).le c) {r : ℚ} (hr : 0 ≤ r)
    (hinf : c = JSNumber.posInf → r ≠ 0) : (JSNumber.finite 0).le (c.mul (JSNumber.finite r)) := by
  rcases nonneg_cases hc with ⟨a, ha, rfl⟩ | rfl
  · exact roundToDouble_nonneg (mul_nonneg ha hr)
  · have hr0 := hinf rfl
    have hpos : 0 < r := lt_of_le_of_ne hr (Ne.symm hr0)
    simp only [JSNumber.mul, if_neg hr0, if_pos hpos, JSNumber.le]

/-- The rows of one window: with a non-negative opening balance `c` and a
non-negative product `c * r`, the total does not decrease from month `m` to a
later month `n`. -/
theorem total_mono_month {c r : JSNumber} (hc : (JSNumber.finite 0).le c)
    (hp : (JSNumber.finite 0).le (c.mul r)) {m n : ℚ} (hm : 0 ≤ m) (hmn : m ≤ n)
    (hinf : c.mul r = JSNumber.posInf → 0 < m) :
    (c.add (calculateMonthlyInterest c (JSNumber.finite m) r)).le
      (c.add (calculateMonthlyInterest c (JSNumber.finite n) r)) :=
  add_mono_right hc (calculateMonthlyInterest_nonneg hp hm hinf)
    (calculateMonthlyInterest_mono_month hp hmn hinf)

/-- The 17 rows built from one finite non-negative binary64 opening balance `b` and
a finite non-negative rate `r` whose product `b * r` is finite: the interest is
non-negative in every row and `totalPayable` never decreases from a row to the
next. -/
theorem schedule_monotone {b r p : ℚ} (hb : 0 ≤ b) (hd : (JSNumber.finite b).IsDouble)
    (hr : 0 ≤ r) (hp : (JSNumber.finite b).mul (JSNumber.finite r) = JSNumber.finite p) :
    (∀ row ∈ calculateYearTable (JSNumber.finite r) (JSNumber.finite b) year2024Months ++
        calculateYearTable (JSNumber.finite r)
          ((JSNumber.finite b).add (calculateMonthlyInterest (JSNumber.finite b)
            (JSNumber.finite 12) (JSNumber.finite r))) year2025Months,
      (JSNumber.finite 0).le row.interest) ∧
    List.Chain' JSNumber.le
      ((calculateYearTable (JSNumber.finite r) (JSNumber.finite b) year2024Months ++
        calculateYearTable (JSNumber.finite r)
          ((JSNumber.finite b).add (calculateMonthlyInterest (JSNumber.finite b)
            (JSNumber.finite 12) (JSNumber.finite r))) year2025Months).map
          fun row => row.totalPayable) := by
  -- first window
  have hc : (JSNumber.finite 0).le (JSNumber.finite b) := hb
  have hp0 : (JSNumber.finite 0).le ((JSNumber.finite b).mul (JSNumber.finite r)) :=
    roundToDouble_nonneg (mul_nonneg hb hr)
  have hinf : ∀ m : ℚ,
      (JSNumber.finite b).mul (JSNumber.finite r) = JSNumber.posInf → 0 < m := by
    intro m h
    rw [hp] at h
    exact absurd h (by simp)
  have hI : ∀ m : ℚ, 0 ≤ m → (JSNumber.finite 0).le
      (calculateMonthlyInterest (JSNumber.finite b) (JSNumber.finite m) (JSNumber.finite r)) :=
    fun m hm => calculateMonthlyInterest_nonneg hp0 hm (hinf m)
  have hT : ∀ m n : ℚ, 0 ≤ m → m ≤ n →
      ((JSNumber.finite b).add (calculateMonthlyInterest (JSNumber.finite b)
        (JSNumber.finite m) (JSNumber.finite r))).le
      ((JSNumber.finite b).add (calculateMonthlyInterest (JSNumber.finite b)
        (JSNumber.finite n) (JSNumber.finite r))) :=
    fun m n hm hmn => total_mono_month hc hp0 hm hmn (hinf m)
  -- the carried balance
  obtain ⟨B, hBdef⟩ : ∃ B, B = (JSNumber.finite b).add (calculateMonthlyInterest
      (JSNumber.finite b) (JSNumber.finite 12) (JSNumber.finite r)) := ⟨_, rfl⟩
  rw [← hBdef]
  have hB : (JSNumber.finite 0).le B := by
    rw [hBdef]
    exact add_nonneg hc (hI 12 (by norm_num))
  have hBd : B.IsDouble := by
    rw [hBdef]
    exact isDouble_add _ _
  have hBinf : B = JSNumber.posInf → r ≠ 0 := by
    intro hB' hr0
    subst hr0
    have h0 : (JSNumber.finite b).mul (JSNumber.finite 0) = JSNumber.finite 0 := by
      rw [mul_finite, mul_zero, roundToDouble_zero]
    have h12 : calculateMonthlyInterest (JSNumber.finite b) (JSNumber.finite 12)
        (JSNumber.finite 0) = JSNumber.finite 0 := by
      unfold calculateMonthlyInterest
      rw [h0, mul_finite, zero_mul, roundToDouble_zero, div_1200_zero, mathRound_zero]
    rw [h12, add_finite, add_zero, show roundToDouble b = JSNumber.finite b from hd] at hBdef
    rw [hBdef] at hB'
    exact absurd hB' (by simp)
  have hp0' : (JSNumber.finite 0).le (B.mul (JSNumber.finite r)) := mul_rate_nonneg hB hr hBinf
  have hI' : ∀ m : ℚ, 0 < m → (JSNumber.finite 0).le
      (calculateMonthlyInterest B (JSNumber.finite m) (JSNumber.finite r)) :=
    fun m hm => calculateMonthlyInterest_nonneg hp0' (le_of_lt hm) (fun _ => hm)
  have hT' : ∀ m n : ℚ, 0 < m → m ≤ n →
      (B.add (calculateMonthlyInterest B (JSNumber.finite m) (JSNumber.finite r))).le
      (B.add (calculateMonthlyInterest B (JSNumber.finite n) (JSNumber.finite r))) :=
    fun m n hm hmn => total_mono_month hB hp0' (le_of_lt hm) hmn (fun _ => hm)
  have hcross : ((JSNumber.finite b).add (calculateMonthlyInterest (JSNumber.finite b)
      (JSNumber.finite 12) (JSNumber.finite r))).le
      (B.add (calculateMonthlyInterest B (JSNumber.finite 1) (JSNumber.finite r))) := by
    rw [← hBdef]
    exact le_add_of_nonneg hB hBd (hI' 1 (by norm_num))
  constructor
  · intro row hrow
    simp only [calculateYearTable, year2024Months, year2025Months, List.map, List.cons_append,
      List.nil_append, List.mem_cons, List.mem_singleton, List.not_mem_nil, or_false] at hrow
    rcases hrow with h | h | h | h | h | h | h | h | h | h | h | h | h | h | h | h | h <;>
      subst h <;> first | exact hI _ (by norm_num) | exact hI' _ (by norm_num)
  · simp only [calculateYearTable, year2024Months, year2025Months, List.map, List.cons_append,
      List.nil_append, List.chain'_cons, List.chain'_singleton, and_true]
    exact ⟨hT 0 1 (by norm_num) (by norm_num), hT 1 2 (by norm_num) (by norm_num),
      hT 2 3 (by norm_num) (by norm_num), hT 3 4 (by norm_num) (by norm_num),
      hT 4 5 (by norm_num) (by norm_num), hT 5 6 (by norm_num) (by norm_num),
      hT 6 7 (by norm_num) (by norm_num), hT 7 8 (by norm_num) (by norm_num),
      hT 8 9 (by norm_num) (by norm_num), hT 9 10 (by norm_num) (by norm_num),
      hT 10 11 (by norm_num) (by norm_num), hT 11 12 (by norm_num) (by norm_num), hcross,
      hT' 1 2 (by norm_num) (by norm_num), hT' 2 3 (by norm_num) (by norm_num),
      hT' 3 4 (by norm_num) (by norm_num)⟩

/-- C10 refuted at the opening balances `2 ^ 1023` (a non-negative integer binary64
value) and the rate `2`: `b * r` overflows, the interest of row 0 of `table833` is
`NaN`, and `0 <= NaN` is false. -/
theorem calculatePensionTables_not_monotone :
    (2 : ℚ) ^ 1023 = (((2 : ℤ) ^ 1023 : ℤ) : ℚ) ∧ (0 : ℤ) ≤ (2 : ℤ) ^ 1023 ∧
    (JSNumber.finite ((2 : ℚ) ^ 1023)).IsDouble ∧ (JSNumber.finite 2).IsDouble ∧
    ∃ tables, calculatePensionTables
        ⟨JSNumber.finite ((2 : ℚ) ^ 1023), JSNumber.finite ((2 : ℚ) ^ 1023),
          JSNumber.finite 2⟩ = some tables ∧
      (tables.table833.head?).map (fun row => row.interest) = some JSNumber.nan ∧
      ¬ ∀ row ∈ tables.table833, (JSNumber.finite 0).le row.interest := by
  refine ⟨by push_cast; rfl, by positivity, roundToDouble_two_pow_1023, roundToDouble_two, _,
    calculatePensionTables_eq _, ?_, ?_⟩
  · simp only [calculateYearTable, year2024Months, List.map, List.cons_append, List.head?,
      Option.map, calculateMonthlyInterest_overflow]
  · intro h
    have h0 := h ⟨"31-03-2024", JSNumber.finite ((2 : ℚ) ^ 1023),
      calculateMonthlyInterest (JSNumber.finite ((2 : ℚ) ^ 1023)) (JSNumber.finite 0)
        (JSNumber.finite 2),
      (JSNumber.finite ((2 : ℚ) ^ 1023)).add
        (calculateMonthlyInterest (JSNumber.finite ((2 : ℚ) ^ 1023)) (JSNumber.finite 0)
          (JSNumber.finite 2))⟩
      (by simp [calculateYearTable, year2024Months])
    rw [calculateMonthlyInterest_overflow] at h0
    exact h0

/-- C10 as amended: for non-negative integer opening balances that are binary64
values and a non-negative rate whose products with the two balances are finite,
in each 17-row table returned by `calculatePensionTables` the interest is `≥ 0` in
every row and `totalPayable` is non-decreasing along the rows, the step from row
12 to row 13 included. -/
theorem calculatePensionTables_monotone (b833 b116 : ℤ) (r p833 p116 : ℚ)
    (h833 : 0 ≤ b833) (h116 : 0 ≤ b116) (hr : 0 ≤ r)
    (hd833 : (JSNumber.finite (b833 : ℚ)).IsDouble)
    (hd116 : (JSNumber.finite (b116 : ℚ)).IsDouble)
    (hp833 : (JSNumber.finite (b833 : ℚ)).mul (JSNumber.finite r) = JSNumber.finite p833)
    (hp116 : (JSNumber.finite (b116 : ℚ)).mul (JSNumber.finite r) = JSNumber.finite p116) :
    ∃ tables, calculatePensionTables
        ⟨JSNumber.finite (b833 : ℚ), JSNumber.finite (b116 : ℚ), JSNumber.finite r⟩
          = some tables ∧
      (∀ row ∈ tables.table833, (JSNumber.finite 0).le row.interest) ∧
      List.Chain' JSNumber.le (tables.table833.map fun row => row.totalPayable) ∧
      (∀ row ∈ tables.table116, (JSNumber.finite 0).le row.interest) ∧
      List.Chain' JSNumber.le (tables.table116.map fun row => row.totalPayable) := by
  have hq833 : (0 : ℚ) ≤ (b833 : ℚ) := by exact_mod_cast h833
  have hq116 : (0 : ℚ) ≤ (b116 : ℚ) := by exact_mod_cast h116
  exact ⟨_, calculatePensionTables_eq _, (schedule_monotone hq833 hd833 hr hp833).1,
    (schedule_monotone hq833 hd833 hr hp833).2, (schedule_monotone hq116 hd116 hr hp116).1,
    (schedule_monotone hq116 hd116 hr hp116).2⟩

/-- Witness for C10 at the balances `346110`, `12527` and the rate `8.25`. -/
theorem calculatePensionTables_monotone_witness :
    (0 : ℤ) ≤ 346110 ∧ (0 : ℤ) ≤ 12527 ∧ (0 : ℚ) ≤ 33 / 4 ∧
    (JSNumber.finite ((346110 : ℤ) : ℚ)).IsDouble ∧
    (JSNumber.finite ((12527 : ℤ) : ℚ)).IsDouble ∧
    (JSNumber.finite ((346110 : ℤ) : ℚ)).mul (JSNumber.finite (33 / 4))
      = JSNumber.finite (5710815 / 2) ∧
    (JSNumber.finite ((12527 : ℤ) : ℚ)).mul (JSNumber.finite (33 / 4))
      = JSNumber.finite (413391 / 4) ∧
    ∃ tables, calculatePensionTables
        ⟨JSNumber.finite ((346110 : ℤ) : ℚ), JSNumber.finite ((12527 : ℤ) : ℚ),
          JSNumber.finite (33 / 4)⟩ = some tables ∧
      (∀ row ∈ tables.table833, (JSNumber.finite 0).le row.interest) ∧
      List.Chain' JSNumber.le (tables.table833.map fun row => row.totalPayable) ∧
      (∀ row ∈ tables.table116, (JSNumber.finite 0).le row.interest) ∧
      List.Chain' JSNumber.le (tables.table116.map fun row => row.totalPayable) :=
  have e1 : ((346110 : ℤ) : ℚ) = 346110 := by norm_num
  have e2 : ((12527 : ℤ) : ℚ) = 12527 := by norm_num
  have d1 : (JSNumber.finite ((346110 : ℤ) : ℚ)).IsDouble := by rw [e1]; exact isDouble_346110
  have d2 : (JSNumber.finite ((12527 : ℤ) : ℚ)).IsDouble := by rw [e2]; exact isDouble_12527
  have m1 : (JSNumber.finite ((346110 : ℤ) : ℚ)).mul (JSNumber.finite (33 / 4))
      = JSNumber.finite (5710815 / 2) := by rw [e1]; exact mul_346110_rate
  have m2 : (JSNumber.finite ((12527 : ℤ) : ℚ)).mul (JSNumber.finite (33 / 4))
      = JSNumber.finite (413391 / 4) := by rw [e2]; exact mul_12527_rate
  ⟨by decide, by decide, by norm_num, d1, d2, m1, m2,
    calculatePensionTables_monotone 346110 12527 (33 / 4) (5710815 / 2) (413391 / 4)
      (by decide) (by decide) (by norm_num) d1 d2 m1 m2⟩

/-! ## The rate of the two schedules -/

theorem pensionTablesCalls_eq (config : Config) :
    pensionTablesCalls config = some
      ( yearTableCalls config.annualRate config.openingBalance833 year2024Months ++
          yearTableCalls config.annualRate
            (config.openingBalance833.add
              (calculateMonthlyInterest config.openingBalance833 (JSNumber.finite 12)
                config.annualRate))
            year2025Months,
        yearTableCalls config.annualRate config.openingBalance116 year2024Months ++
          yearTableCalls config.annualRate
            (config.openingBalance116.add
              (calculateMonthlyInterest config.openingBalance116 (JSNumber.finite 12)
                config.annualRate))
            year2025Months ) := by
  simp [pensionTablesCalls, closingBalance_year2024]

/-- The interest column of a year table is the interest formula applied to the
recorded calls, one by one. -/
theorem calculateYearTable_interest_eq_calls (r b : JSNumber) (ps : List PeriodDefinition) :
    (calculateYearTable r b ps).map (fun row => row.interest) =
      (yearTableCalls r b ps).map fun c =>
        calculateMonthlyInterest c.openingBalance c.monthNumber c.annualRate := by
  simp [calculateYearTable, yearTableCalls]

/-- C7 refuted at the configuration of `calculatePension`: every call of the
interest formula made for `table833` and every call made for `table116` receives
the same annual rate `8.25`, so no call of the one differs in rate from a call of
the other. -/
theorem pensionTablesCalls_rate_not_different :
    (pensionTablesCalls pensionConfig).map
        (fun calls => (calls.1.map (fun c => c.annualRate), calls.2.map (fun c => c.annualRate)))
      = some (List.replicate 17 (JSNumber.finite (33 / 4)),
          List.replicate 17 (JSNumber.finite (33 / 4))) ∧
    ¬ ∃ calls, pensionTablesCalls pensionConfig = some calls ∧
        ∀ c833 ∈ calls.1, ∀ c116 ∈ calls.2, c833.annualRate ≠ c116.annualRate := by
  constructor
  · rw [pensionTablesCalls_eq]
    simp [yearTableCalls, year2024Months, year2025Months, pensionConfig, List.replicate]
  · rintro ⟨calls, hcalls, hne⟩
    rw [pensionTablesCalls_eq] at hcalls
    cases hcalls
    refine hne ⟨pensionConfig.openingBalance833, JSNumber.finite 0, pensionConfig.annualRate⟩ ?_
      ⟨pensionConfig.openingBalance116, JSNumber.finite 0, pensionConfig.annualRate⟩ ?_ rfl <;>
      simp [yearTableCalls, year2024Months]

/-- C7 as amended: the two schedules produced by one calculation are computed with
one and the same annual rate. For every configuration each of the 17 calls of the
interest formula made for `table833` and each of the 17 made for `table116`
receives `config.annualRate`, the interest columns are the formula applied to
these calls, and `calculatePension` sets this rate to `8.25`. -/
theorem pensionTablesCalls_single_rate (config : Config) :
    pensionConfig.annualRate = JSNumber.finite (33 / 4) ∧
    ∃ calls tables, pensionTablesCalls config = some calls ∧
      calculatePensionTables config = some tables ∧
      calls.1.map (fun c => c.annualRate) = List.replicate 17 config.annualRate ∧
      calls.2.map (fun c => c.annualRate) = List.replicate 17 config.annualRate ∧
      tables.table833.map (fun row => row.interest) =
        calls.1.map (fun c =>
          calculateMonthlyInterest c.openingBalance c.monthNumber c.annualRate) ∧
      tables.table116.map (fun row => row.interest) =
        calls.2.map (fun c =>
          calculateMonthlyInterest c.openingBalance c.monthNumber c.annualRate) := by
  refine ⟨rfl, _, _, pensionTablesCalls_eq config, calculatePensionTables_eq config,
    ?_, ?_, ?_, ?_⟩
  · simp [yearTableCalls, year2024Months, year2025Months, List.replicate]
  · simp [yearTableCalls, year2024Months, year2025Months, List.replicate]
  · simp only [List.map_append, calculateYearTable_interest_eq_calls]
  · simp only [List.map_append, calculateYearTable_interest_eq_calls]

/-! ## `calculatePension` -/

theorem calculatePension_of_missing {W : Type} (s : State W)
    (h : s.csvData = none ∨ s.calculatorSheet = none) :
    calculatePension s = { s with error := some missingInputMessage } := by
  obtain ⟨csv, sheet, tables, loading, error⟩ := s
  cases csv <;> cases sheet <;> simp_all [calculatePension]

theorem calculatePension_of_present {W : Type} (s : State W)
    (h : s.csvData.isSome ∧ s.calculatorSheet.isSome) :
    calculatePension s =
      { s with
        loading := false
        summaryTables :=
          { table833 := some
              (calculateYearTable (JSNumber.finite (33 / 4)) (JSNumber.finite 346110)
                  year2024Months ++
                calculateYearTable (JSNumber.finite (33 / 4))
                  ((JSNumber.finite 346110).add
                    (calculateMonthlyInterest (JSNumber.finite 346110) (JSNumber.finite 12)
                      (JSNumber.finite (33 / 4)))) year2025Months)
            table116 := some
              (calculateYearTable (JSNumber.finite (33 / 4)) (JSNumber.finite 12527)
                  year2024Months ++
                calculateYearTable (JSNumber.finite (33 / 4))
                  ((JSNumber.finite 12527).add
                    (calculateMonthlyInterest (JSNumber.finite 12527) (JSNumber.finite 12)
                      (JSNumber.finite (33 / 4)))) year2025Months) } } := by
  obtain ⟨csv, sheet, tables, loading, error⟩ := s
  cases csv <;> cases sheet <;>
    simp_all [calculatePension, calculatePensionTables_eq, pensionConfig]

/-- C8: when `calculatePension` runs while `csvData` or `calculatorSheet` is
absent, the resulting state has `error` equal to the missing-input message and
`csvData`, `calculatorSheet`, `summaryTables` and `loading` unchanged; and a run
that changes `summaryTables` had both inputs present. -/
theorem calculatePension_missing_input {W : Type} (s : State W) :
    ((s.csvData = none ∨ s.calculatorSheet = none) →
      (calculatePension s).error = some "Please upload both CSV and Excel files first" ∧
      (calculatePension s).csvData = s.csvData ∧
      (calculatePension s).calculatorSheet = s.calculatorSheet ∧
      (calculatePension s).summaryTables = s.summaryTables ∧
      (calculatePension s).loading = s.loading) ∧
    ((calculatePension s).summaryTables ≠ s.summaryTables →
      s.csvData.isSome ∧ s.calculatorSheet.isSome) := by
  constructor
  · intro h
    rw [calculatePension_of_missing s h]
    exact ⟨rfl, rfl, rfl, rfl, rfl⟩
  · intro hne
    by_contra hmiss
    apply hne
    have h : s.csvData = none ∨ s.calculatorSheet = none := by
      by_contra hc
      push_neg at hc
      exact hmiss ⟨Option.isSome_iff_ne_none.mpr hc.1, Option.isSome_iff_ne_none.mpr hc.2⟩
    rw [calculatePension_of_missing s h]

/-- Witness for C8: a run with the workbook missing and earlier results on
display; and a run with both inputs present that replaces empty results. -/
theorem calculatePension_missing_input_witness :
    (((⟨some [], none, ⟨some [], some []⟩, true, none⟩ : State Unit).csvData = none ∨
        (⟨some [], none, ⟨some [], some []⟩, true, none⟩ : State Unit).calculatorSheet = none) ∧
      (calculatePension (⟨some [], none, ⟨some [], some []⟩, true, none⟩ : State Unit)).error
        = some "Please upload both CSV and Excel files first" ∧
      (calculatePension (⟨some [], none, ⟨some [], some []⟩, true, none⟩ : State Unit)).summaryTables
        = ⟨some [], some []⟩ ∧
      (calculatePension (⟨some [], none, ⟨some [], some []⟩, true, none⟩ : State Unit)).loading
        = true) ∧
    ((calculatePension (⟨some [], some (), ⟨none, none⟩, false, none⟩ : State Unit)).summaryTables
        ≠ (⟨some [], some (), ⟨none, none⟩, false, none⟩ : State Unit).summaryTables ∧
      (⟨some [], some (), ⟨none, none⟩, false, none⟩ : State Unit).csvData.isSome ∧
      (⟨some [], some (), ⟨none, none⟩, false, none⟩ : State Unit).calculatorSheet.isSome) := by
  have hmiss : (⟨some [], none, ⟨some [], some []⟩, true, none⟩ : State Unit).csvData = none ∨
      (⟨some [], none, ⟨some [], some []⟩, true, none⟩ : State Unit).calculatorSheet = none :=
    Or.inr rfl
  have hchg :
      (calculatePension (⟨some [], some (), ⟨none, none⟩, false, none⟩ : State Unit)).summaryTables
        ≠ (⟨some [], some (), ⟨none, none⟩, false, none⟩ : State Unit).summaryTables := by
    rw [calculatePension_of_present
      (⟨some [], some (), ⟨none, none⟩, false, none⟩ : State Unit) ⟨rfl, rfl⟩]
    simp
  have h1 := (calculatePension_missing_input
    (⟨some [], none, ⟨some [], some []⟩, true, none⟩ : State Unit)).1 hmiss
  exact ⟨⟨hmiss, h1.1, h1.2.2.2.1, h1.2.2.2.2⟩, hchg,
    (calculatePension_missing_input
      (⟨some [], some (), ⟨none, none⟩, false, none⟩ : State Unit)).2 hchg⟩

/-- C9: any two runs of `calculatePension` with both inputs present, whatever the
uploaded contents, produce the same summary tables: the two tables of
`calculatePensionTables` for the opening balances `346110` and `12527` at the rate
`8.25`. -/
theorem calculatePension_independent_of_uploads {W₁ W₂ : Type} (s₁ : State W₁) (s₂ : State W₂)
    (h₁ : s₁.csvData.isSome ∧ s₁.calculatorSheet.isSome)
    (h₂ : s₂.csvData.isSome ∧ s₂.calculatorSheet.isSome) :
    (calculatePension s₁).summaryTables = (calculatePension s₂).summaryTables ∧
    ∃ tables, calculatePensionTables
        ⟨JSNumber.finite 346110, JSNumber.finite 12527, JSNumber.finite (33 / 4)⟩
          = some tables ∧
      (calculatePension s₁).summaryTables =
        { table833 := some tables.table833, table116 := some tables.table116 } := by
  rw [calculatePension_of_present s₁ h₁, calculatePension_of_present s₂ h₂]
  exact ⟨rfl, _, calculatePensionTables_eq _, rfl⟩

/-- Witness for C9: an empty CSV with one workbook against a one-row CSV with
another workbook, and different earlier results. -/
theorem calculatePension_independent_of_uploads_witness :
    ((⟨some [], some "a.xlsx", ⟨none, none⟩, false, none⟩ : State String).csvData.isSome ∧
      (⟨some [], some "a.xlsx", ⟨none, none⟩, false, none⟩ : State String).calculatorSheet.isSome) ∧
    ((⟨some [[("Wage Month", CsvValue.text "Apr-2024")]], some 7, ⟨some [], none⟩, true,
        some "x"⟩ : State ℕ).csvData.isSome ∧
      (⟨some [[("Wage Month", CsvValue.text "Apr-2024")]], some 7, ⟨some [], none⟩, true,
        some "x"⟩ : State ℕ).calculatorSheet.isSome) ∧
    (calculatePension
        (⟨some [], some "a.xlsx", ⟨none, none⟩, false, none⟩ : State String)).summaryTables =
      (calculatePension
        (⟨some [[("Wage Month", CsvValue.text "Apr-2024")]], some 7, ⟨some [], none⟩, true,
          some "x"⟩ : State ℕ)).summaryTables :=
  ⟨⟨rfl, rfl⟩, ⟨rfl, rfl⟩,
   (calculatePension_independent_of_uploads
      (⟨some [], some "a.xlsx", ⟨none, none⟩, false, none⟩ : State String)
      (⟨some [[("Wage Month", CsvValue.text "Apr-2024")]], some 7, ⟨some [], none⟩, true,
        some "x"⟩ : State ℕ) ⟨rfl, rfl⟩ ⟨rfl, rfl⟩).1⟩

end PensionCalculator
